import Mathlib

/-!
Verification development for the HMA (heap-memory-area) lock manager of the
server-edition page-lock module (src/server.c).

The C module is embedded shallowly and sequentially: the memory-mapped HMA
file is a function from word index to 32-bit word value (represented as Nat),
compare-and-swap loops are modelled as single atomic read-modify-write steps
(no interference from other processes happens between a read and its CAS in
the sequential semantics, so every CAS succeeds), and all interaction with
the environment (fcntl advisory-lock results, malloc success, journal
rollback results, gettimeofday) is supplied by explicit oracle records.

Layout of the mapped file (function aMap : Nat -> Nat):
  index 0                  DMS slot
  index 1 + i              client slot for client i (i < 16)
  index 1 + 16 + s         page-lock slot s (s < 262144)
-/

/-! ## Constants from server.c and sqlite3.h -/

def HMA_CLIENT_SLOTS : Nat := 16

def HMA_PAGELOCK_SLOTS : Nat := 256 * 1024

def SQLITE_OK : Nat := 0

def SQLITE_ERROR : Nat := 1

def SQLITE_BUSY : Nat := 5

def SQLITE_NOMEM : Nat := 7

/-- SQLITE_BUSY_DEADLOCK is the extended code (SQLITE_BUSY | (2 shifted left 8)). -/
def SQLITE_BUSY_DEADLOCK : Nat := 5 + 2 * 256

def SERVER_WRITE_LOCK : Nat := 3

def SERVER_READ_LOCK : Nat := 2

def SERVER_NO_LOCK : Nat := 1

/-- The errno value the OS reports for a detected advisory-lock deadlock. -/
def EDEADLK : Nat := 35

/-- Low 16 bits of a page-lock word: the shared-reader bitmask
((1 shifted left HMA_CLIENT_SLOTS) - 1 in the C source). -/
def MASK16 : Nat := (1 <<< HMA_CLIENT_SLOTS) - 1

/-- All 32 bits set; used to model the C complement operator on u32 values. -/
def U32MASK : Nat := 2 ^ 32 - 1

/-! ## OS lock wrapper (posixLock) -/

/-- Result of the fcntl call as seen by posixLock: success, or failure with an
errno value. -/
inductive OsRes where
  | ok : OsRes
  | err : Nat → OsRes
deriving DecidableEq

/-- The byte range that posixLock passes to fcntl: l_start = iSlot*sizeof(u32),
l_len = 1. -/
structure FlockRange where
  l_start : Nat
  l_len : Nat
deriving DecidableEq

/-- Byte range locked by posixLock for slot iSlot (server.c lines 131-132). -/
def posixLockRange (iSlot : Nat) : FlockRange := ⟨iSlot * 4, 1⟩

/-- Return value of posixLock (server.c lines 134-138): fcntl result res is 0 on
success; on failure, a blocking request that failed with EDEADLK yields
SQLITE_BUSY_DEADLOCK, and every other failure yields SQLITE_BUSY. -/
def posixLock (iSlot eLock : Nat) (bBlock : Bool) (res : OsRes) : Nat :=
  match res with
  | OsRes.ok => SQLITE_OK
  | OsRes.err e => if bBlock = true ∧ e = EDEADLK then SQLITE_BUSY_DEADLOCK else SQLITE_BUSY

/-! ## Word-level helpers -/

/-- Pointwise update of a word map at one index. -/
def setIdx (f : Nat → Nat) (i n : Nat) : Nat → Nat :=
  fun j => if j = i then n else f j

/-- Index in the mapped file of the page-lock slot for page pgno
(serverPageLockSlot, server.c lines 252-255). -/
def pageLockIdx (pgno : Nat) : Nat :=
  1 + HMA_CLIENT_SLOTS + pgno % HMA_PAGELOCK_SLOTS

/-- Index in the mapped file of the client slot for client iClient
(serverClientSlot, server.c lines 256-258). -/
def clientSlotIdx (iClient : Nat) : Nat := 1 + iClient

/-- serverWriteLocker (server.c lines 491-493): the client id holding the
RESERVED or EXCLUSIVE lock according to page-lock word v, or -1 if none. -/
def serverWriteLocker (v : Nat) : Int :=
  ((v >>> HMA_CLIENT_SLOTS : Nat) : Int) - 1

/-- One step of the scrub loop in serverRollbackClient (server.c lines 302-309):
clear bit iBlock, and if the write field names client iBlock, clear the write
field as well. -/
def scrubWord (v iBlock : Nat) : Nat :=
  let n := v &&& (U32MASK ^^^ (1 <<< iBlock))
  if v >>> HMA_CLIENT_SLOTS = iBlock + 1 then n &&& MASK16 else n

/-- The effect of serverRollbackClient's scrub pass over the whole page-lock
slot array (server.c lines 297-311): every page-lock word is scrubbed. -/
def scrubMap (m : Nat → Nat) (iBlock : Nat) : Nat → Nat :=
  fun j =>
    if 1 + HMA_CLIENT_SLOTS ≤ j ∧ j < 1 + HMA_CLIENT_SLOTS + HMA_PAGELOCK_SLOTS then
      scrubWord (m j) iBlock
    else m j

/-- serverRollbackClient (server.c lines 288-314): roll back the journal of
client iBlock (result given by the oracle), and on success scrub that client
from every page-lock slot. Returns the rollback result code and the new map. -/
def rollbackClientMap (rollbackRc : Nat → Nat) (m : Nat → Nat) (iBlock : Nat) :
    Nat × (Nat → Nat) :=
  let rc := rollbackRc iBlock
  if rc = SQLITE_OK then (rc, scrubMap m iBlock) else (rc, m)

/-! ## Environment oracles -/

/-- Oracles for everything the module consumes from outside: fcntl results for
each kind of call (indexed by the client slot being probed), journal-rollback
results, whether sqlite3_realloc succeeds, and the current time in
microseconds. -/
structure Env where
  probeRes : Nat → OsRes
  waitRes : Nat → OsRes
  rollbackRc : Nat → Nat
  allocOk : Bool
  now : Int
  beginRes : OsRes
  endRes : OsRes

/-! ## Per-connection state -/

/-- The Server structure (server.c lines 92-101) together with the parts of its
ServerHMA that the page-lock engine reads: the mapped file and the table of
local clients (modelled as a predicate: aClient i is true when pHma->aClient[i]
is non-null in this process). -/
structure ServerState where
  iClient : Nat
  nAlloc : Nat
  aLock : List Nat
  iUsWrite : Int
  nUsWrite : Int
  aMap : Nat → Nat
  aClient : Nat → Bool

/-! ## serverOvercomeLock -/

/-- The scan in serverOvercomeLock (server.c lines 393-395) that picks the first
client other than iClient whose reader bit is set in v; returns 16 when no such
bit exists. Argument order of findScanGo: remaining iterations, current index. -/
def findScanGo (v iClient : Nat) : Nat → Nat → Nat
  | 0, i => i
  | fuel + 1, i =>
    if i ≠ iClient ∧ v.testBit i = true then i else findScanGo v iClient fuel (i + 1)

/-- The for-loop of server.c lines 393-395 in full: sixteen probes from 0. -/
def findBlockerScan (v iClient : Nat) : Nat :=
  findScanGo v iClient HMA_CLIENT_SLOTS 0

/-- Blocker selection of serverOvercomeLock (server.c lines 390-396): the write
locker if it is a live different client, otherwise the first other reader. -/
def serverBlocker (v iClient : Nat) : Nat :=
  let iBlock := serverWriteLocker v
  if iBlock < 0 ∨ iBlock = (iClient : Int) then findBlockerScan v iClient
  else iBlock.toNat

/-- serverOvercomeLock (server.c lines 382-429). Result is (rc, bRetry, new map).
When the blocker has a local connection (aClient true) nothing is attempted and
(SQLITE_OK, false) is returned. Otherwise a non-blocking writer-lock probe on
the blocker's client slot decides between rollback-and-retry (peer dead) and,
for blocking requests, waiting on a blocking reader-lock. -/
def serverOvercomeLock (env : Env) (iClient : Nat) (aClient : Nat → Bool)
    (bBlock : Bool) (m : Nat → Nat) (v : Nat) : Nat × Bool × (Nat → Nat) :=
  let iBlock := serverBlocker v iClient
  if aClient iBlock = true then (SQLITE_OK, false, m)
  else
    let rc := posixLock (iBlock + 1) SERVER_WRITE_LOCK false (env.probeRes iBlock)
    if rc = SQLITE_OK then
      let r := rollbackClientMap env.rollbackRc m iBlock
      (r.1, decide (r.1 = SQLITE_OK), r.2)
    else if rc = SQLITE_BUSY then
      if bBlock = true then
        let rc2 := posixLock (iBlock + 1) SERVER_READ_LOCK true (env.waitRes iBlock)
        if rc2 = SQLITE_OK then (SQLITE_OK, true, m)
        else if rc2 = SQLITE_BUSY then (SQLITE_OK, false, m)
        else (rc2, false, m)
      else (SQLITE_OK, false, m)
    else (rc, false, m)

/-! ## sqlite3ServerLock -/

/-- The acquisition loop of sqlite3ServerLock (server.c lines 532-570), fuelled.
State threaded through the loop: the map, the last-read word v, and the
bReserved flag. In the sequential semantics every CAS succeeds, so the
RESERVED installation (lines 540-550) never takes its miscompare branch and
the final CAS (line 568) always breaks out of the outer while. -/
def serverLockLoop (env : Env) (iClient : Nat) (aClient : Nat → Bool) (pgno : Nat)
    (bWrite bBlock : Bool) : Nat → (Nat → Nat) → Nat → Bool →
    Option (Nat × (Nat → Nat) × Bool)
  | 0, _, _, _ => none
  | fuel + 1, m, v, bReserved =>
    let idx := pageLockIdx pgno
    let w := serverWriteLocker v
    let mask := if bWrite then MASK16 &&& (U32MASK ^^^ (1 <<< iClient)) else 0
    if (0 ≤ w ∧ w ≠ (iClient : Int)) ∨ v &&& mask ≠ 0 then
      let p1 :=
        if w < 0 ∧ bWrite = true ∧ bBlock = true then
          (v ||| ((iClient + 1) <<< HMA_CLIENT_SLOTS),
           setIdx m idx (v ||| ((iClient + 1) <<< HMA_CLIENT_SLOTS)), true)
        else (v, m, bReserved)
      let o := serverOvercomeLock env iClient aClient bBlock p1.2.1 p1.1
      if o.1 ≠ SQLITE_OK then some (o.1, o.2.2, p1.2.2)
      else if o.2.1 = true then
        serverLockLoop env iClient aClient pgno bWrite bBlock fuel o.2.2 (o.2.2 idx) p1.2.2
      else some (SQLITE_BUSY_DEADLOCK, o.2.2, p1.2.2)
    else
      let n := (v ||| (1 <<< iClient)) |||
        (if bWrite then (iClient + 1) <<< HMA_CLIENT_SLOTS else 0)
      some (SQLITE_OK, setIdx m idx n, bReserved)

/-- The epilogue at server_lock_out (server.c lines 584-588): a lock call on
page 0 records the current time as the WRITER start time, on every path. -/
def serverLockFinish (env : Env) (st : ServerState) (pgno : Nat) : ServerState :=
  if pgno = 0 then { st with iUsWrite := env.now } else st

/-- sqlite3ServerLock (server.c lines 501-591). Returns none only when the
fuel for the acquisition loop runs out (the C code would still be looping).
Steps, in source order: grow aLock if full (realloc failure yields
SQLITE_NOMEM), fast path when the lock is already held, otherwise append pgno
to aLock and run the acquisition loop; on a non-OK result with RESERVED
installed, clear the write field; finally the page-0 timestamp epilogue. -/
def sqlite3ServerLock (env : Env) (fuel : Nat) (st : ServerState) (pgno : Nat)
    (bWrite bBlock : Bool) : Option (Nat × ServerState) :=
  let idx := pageLockIdx pgno
  if st.aLock.length = st.nAlloc ∧ env.allocOk = false then
    some (SQLITE_NOMEM, serverLockFinish env st pgno)
  else
    let st1 :=
      if st.aLock.length = st.nAlloc then
        { st with nAlloc := if st.nAlloc = 0 then 128 else st.nAlloc * 2 }
      else st
    let v := st1.aMap idx
    let held :=
      if bWrite then decide (serverWriteLocker v = (st1.iClient : Int))
      else v.testBit st1.iClient
    if held = true then some (SQLITE_OK, serverLockFinish env st1 pgno)
    else
      let st2 := { st1 with aLock := st1.aLock ++ [pgno] }
      match serverLockLoop env st2.iClient st2.aClient pgno bWrite bBlock fuel st2.aMap v false with
      | none => none
      | some (rc, m1, bReserved) =>
        let m2 :=
          if rc ≠ SQLITE_OK ∧ bReserved = true then
            setIdx m1 idx ((m1 idx) &&& MASK16)
          else m1
        some (rc, serverLockFinish env { st2 with aMap := m2 } pgno)

/-! ## sqlite3ServerBegin -/

/-- sqlite3ServerBegin (server.c lines 434-440): a blocking OS writer-lock on
the connection's own client slot, then sqlite3ServerLock on page 1 (read,
blocking). -/
def sqlite3ServerBegin (env : Env) (fuel : Nat) (st : ServerState) :
    Option (Nat × ServerState) :=
  let rc := posixLock (st.iClient + 1) SERVER_WRITE_LOCK true env.beginRes
  if rc ≠ SQLITE_OK then some (rc, st)
  else sqlite3ServerLock env fuel st 1 false true

/-- Modelled from the spec: section 4.4 describes begin as taking the SHARED
lock on page 0 via lock(server, page=0, write=false, blocking=true) after the
blocking writer-lock on the connection's own client slot. This definition
follows the spec's words; it is compared against sqlite3ServerBegin, which is
translated from the source. -/
def serverBeginSpec (env : Env) (fuel : Nat) (st : ServerState) :
    Option (Nat × ServerState) :=
  let rc := posixLock (st.iClient + 1) SERVER_WRITE_LOCK true env.beginRes
  if rc ≠ SQLITE_OK then some (rc, st)
  else sqlite3ServerLock env fuel st 0 false true

/-! ## sqlite3ServerEnd -/

/-- One page-lock word release in sqlite3ServerEnd (server.c lines 449-457):
if the write field names this client clear it, and clear this client's reader
bit. -/
def serverEndStepWord (v iClient : Nat) : Nat :=
  let n := if v >>> HMA_CLIENT_SLOTS = iClient + 1 then v &&& MASK16 else v
  n &&& (U32MASK ^^^ (1 <<< iClient))

/-- The release loop of sqlite3ServerEnd (server.c lines 447-470) over the
recorded lock history. Threads the map, the cumulative WRITER time nUsWrite,
and the number of log notices emitted; iUsW is the connection's recorded
WRITER start time (read-only here). For a recorded page 0 the elapsed time is
folded into nUsWrite and the C log condition is evaluated verbatim:
nUsWrite/1000000 against (nUsWrite + nUs)/1000000, with nUsWrite already
updated (server.c lines 463-464). -/
def serverEndLoop (env : Env) (iClient : Nat) (iUsW : Int) :
    List Nat → (Nat → Nat) → Int → Nat → (Nat → Nat) × Int × Nat
  | [], m, nUsW, nLogs => (m, nUsW, nLogs)
  | pgno :: rest, m, nUsW, nLogs =>
    let idx := pageLockIdx pgno
    let m1 := setIdx m idx (serverEndStepWord (m idx) iClient)
    if pgno = 0 then
      let nUs : Int := env.now - iUsW
      let nUsW1 := nUsW + nUs
      let nLogs1 :=
        if Int.tdiv nUsW1 1000000 ≠ Int.tdiv (nUsW1 + nUs) 1000000 then nLogs + 1 else nLogs
      serverEndLoop env iClient iUsW rest m1 nUsW1 nLogs1
    else serverEndLoop env iClient iUsW rest m1 nUsW nLogs

/-- sqlite3ServerEnd (server.c lines 445-476): release every recorded page
lock, reset the history, and downgrade the OS lock on the own client slot to a
reader-lock. Result: (return code, new state, number of log notices). -/
def sqlite3ServerEnd (env : Env) (st : ServerState) : Nat × ServerState × Nat :=
  let r := serverEndLoop env st.iClient st.iUsWrite st.aLock st.aMap st.nUsWrite 0
  (posixLock (st.iClient + 1) SERVER_READ_LOCK false env.endRes,
   { st with aMap := r.1, nUsWrite := r.2.1, aLock := [] },
   r.2.2)

/-- sqlite3ServerHasLock (server.c lines 593-599). -/
def sqlite3ServerHasLock (st : ServerState) (pgno : Nat) (bWrite : Bool) : Bool :=
  let v := st.aMap (pageLockIdx pgno)
  if bWrite then decide (v >>> HMA_CLIENT_SLOTS = st.iClient + 1)
  else v.testBit st.iClient

/-- sqlite3ServerReleaseWriteLocks (server.c lines 481-484): a no-op that
returns SQLITE_OK. -/
def sqlite3ServerReleaseWriteLocks (_st : ServerState) : Nat := SQLITE_OK

/-! ## sqlite3ServerConnect (slot-claim portion) -/

/-- Oracles consumed by the connect slot scan: the fcntl result of the
non-blocking writer-lock probe on each client slot, and journal-rollback
results. -/
structure ConnectEnv where
  slotRes : Nat → OsRes
  rollbackRc : Nat → Nat

/-- The client-slot scan of sqlite3ServerConnect (server.c lines 345-357):
try each index i with no local client; on a successful non-blocking
writer-lock, roll back the previous holder if the in-file client word is
nonzero, then break with that index. Falls off the end with i = 16.
Result: (rc, final loop index, map). -/
def connectScan (env : ConnectEnv) (aClient : Nat → Bool) :
    Nat → Nat → (Nat → Nat) → Nat × Nat × (Nat → Nat)
  | 0, i, m => (SQLITE_OK, i, m)
  | fuel + 1, i, m =>
    if aClient i = false then
      if posixLock (i + 1) SERVER_WRITE_LOCK false (env.slotRes i) = SQLITE_OK then
        if m (clientSlotIdx i) ≠ 0 then
          let r := rollbackClientMap env.rollbackRc m i
          (r.1, i, r.2)
        else (SQLITE_OK, i, m)
      else connectScan env aClient fuel (i + 1) m
    else connectScan env aClient fuel (i + 1) m

/-- The slot-claim portion of sqlite3ServerConnect (server.c lines 341-368),
after the HMA file is mapped. Mirrors the source faithfully, including the
post-loop test written as i > HMA_CLIENT_SLOTS. Result: (rc, claimed client
id or -1, local-client table, map). -/
def sqlite3ServerConnect (env : ConnectEnv) (aClient : Nat → Bool) (m : Nat → Nat) :
    Nat × Int × (Nat → Bool) × (Nat → Nat) :=
  let r := connectScan env aClient HMA_CLIENT_SLOTS 0 m
  let rc := r.1
  let i := r.2.1
  let m1 := r.2.2
  if rc = SQLITE_OK then
    if i > HMA_CLIENT_SLOTS then (SQLITE_BUSY, -1, aClient, m1)
    else
      (SQLITE_OK, (i : Int), fun j => if j = i then true else aClient j,
       setIdx m1 (clientSlotIdx i) 1)
  else (rc, -1, aClient, m1)

/-- A page-lock word carries a contribution from client i when i's reader bit
is set or the write field names i. -/
def clientContrib (v i : Nat) : Prop :=
  v.testBit i = true ∨ v >>> HMA_CLIENT_SLOTS = i + 1

/-! ## Concrete instances used for witnesses and counterexamples -/

/-- A benign oracle environment: every probe and wait fails with errno 11
(contention), journal rollbacks succeed, allocation succeeds, the clock reads
777 microseconds. -/
def envA : Env :=
  { probeRes := fun _ => OsRes.err 11
    waitRes := fun _ => OsRes.err 11
    rollbackRc := fun _ => SQLITE_OK
    allocOk := true
    now := 777
    beginRes := OsRes.ok
    endRes := OsRes.ok }

/-- Same as envA except that sqlite3_realloc fails. -/
def envNoAlloc : Env := { envA with allocOk := false }

/-- Same as envA except that the clock reads 600000 microseconds. -/
def envT6 : Env := { envA with now := 600000 }

/-- A freshly connected client 0: empty history, zeroed map, no local peers. -/
def stZero : ServerState :=
  { iClient := 0
    nAlloc := 0
    aLock := []
    iUsWrite := 0
    nUsWrite := 0
    aMap := fun _ => 0
    aClient := fun _ => false }

/-- Client 0 whose lock-history buffer is full (128 recorded pages) and who
already holds the write lock on page 9: the slot word for page 9 is
65537 = (1 shifted left 16) + 1 (write field 1, reader bit 0). -/
def stHeldFull : ServerState :=
  { stZero with
    nAlloc := 128
    aLock := List.replicate 128 3
    aMap := fun j => if j = pageLockIdx 9 then 65537 else 0 }

/-- Client 0 whose lock-history buffer is full and who holds SHARED on page 5
(slot word 1 = reader bit 0). -/
def stSharedFull : ServerState :=
  { stZero with
    nAlloc := 128
    aLock := List.replicate 128 3
    aMap := fun j => if j = pageLockIdx 5 then 1 else 0 }

/-- Client 0 holding SHARED on page 1 with that page recorded in the history. -/
def stShared1 : ServerState :=
  { stZero with
    nAlloc := 128
    aLock := [1]
    aMap := fun j => if j = pageLockIdx 1 then 1 else 0 }

/-- Client 0 facing a conflicting writer: the slot word for page 5 is
131072 = 2 shifted left 16 (write field 2, i.e. client 1 holds
RESERVED/EXCLUSIVE), and client 1 is a live local peer. -/
def stPeerBlocked : ServerState :=
  { stZero with
    aMap := fun j => if j = pageLockIdx 5 then 131072 else 0
    aClient := fun j => decide (j = 1) }

/-- Client 0 with page 0 recorded in the history and zero cumulative WRITER
time; the WRITER start timestamp is 0. -/
def stWriter0 : ServerState := { stZero with aLock := [0] }

/-- Connect oracles: every slot probe fails with errno 11, rollbacks succeed. -/
def c1Env : ConnectEnv :=
  { slotRes := fun _ => OsRes.err 11
    rollbackRc := fun _ => SQLITE_OK }

/-- A process in which all sixteen client slots are occupied by local clients. -/
def c1Client : Nat → Bool := fun i => decide (i < HMA_CLIENT_SLOTS)

/-! ## Bit-level helper lemmas -/

lemma u32_testBit (i : Nat) : U32MASK.testBit i = decide (i < 32) := by
  rw [show U32MASK = 2 ^ 32 - 1 from rfl, Nat.testBit_two_pow_sub_one]

lemma shl_one_testBit (b i : Nat) : ((1 : Nat) <<< b).testBit i = decide (i = b) := by
  rw [Nat.shiftLeft_eq, one_mul, Nat.testBit_two_pow]
  by_cases h : b = i <;> simp [h, Ne.symm]

lemma notBit_testBit (b i : Nat) (hb : b < 32) :
    (U32MASK ^^^ ((1 : Nat) <<< b)).testBit i = (decide (i < 32) && !(decide (i = b))) := by
  rw [Nat.testBit_xor, u32_testBit, shl_one_testBit]
  by_cases h2 : i = b
  · subst h2; simp [hb]
  · simp [h2]

lemma mask16_eq : MASK16 = 2 ^ 16 - 1 := by
  simp [MASK16, HMA_CLIENT_SLOTS, Nat.shiftLeft_eq]

lemma mask16_testBit (i : Nat) : MASK16.testBit i = decide (i < 16) := by
  rw [mask16_eq, Nat.testBit_two_pow_sub_one]

lemma shr16_zero (v : Nat) (h : v < 2 ^ 16) : v >>> 16 = 0 := by
  rw [Nat.shiftRight_eq_div_pow]
  exact Nat.div_eq_of_lt h

lemma land_mask16_lt (v : Nat) : v &&& MASK16 < 2 ^ 16 := by
  have h : v &&& MASK16 ≤ MASK16 := Nat.and_le_right
  have h2 : MASK16 < 2 ^ 16 := by rw [mask16_eq]; decide
  omega

lemma wf_land_notbit (v b : Nat) (hv : v < 2 ^ 32) (hb : b < 16) :
    (v &&& (U32MASK ^^^ ((1 : Nat) <<< b))) >>> 16 = v >>> 16 := by
  apply Nat.eq_of_testBit_eq
  intro j
  rw [Nat.testBit_shiftRight, Nat.testBit_shiftRight, Nat.testBit_and,
    notBit_testBit _ _ (by omega)]
  by_cases h32 : 16 + j < 32
  · have hne : 16 + j ≠ b := by omega
    simp [h32, hne]
  · have hlt : v < 2 ^ (16 + j) := by
      calc v < 2 ^ 32 := hv
      _ ≤ 2 ^ (16 + j) := Nat.pow_le_pow_right (by decide) (by omega)
    simp [Nat.testBit_lt_two_pow hlt]

lemma wf_lor_shl16 (v k : Nat) : (v ||| (k <<< 16)) >>> 16 = (v >>> 16) ||| k := by
  apply Nat.eq_of_testBit_eq
  intro j
  rw [Nat.testBit_shiftRight, Nat.testBit_or, Nat.testBit_or, Nat.testBit_shiftRight,
    Nat.testBit_shiftLeft]
  have h : 16 ≤ 16 + j := by omega
  simp [h, Nat.add_sub_cancel_left]

lemma wf_lor_bit (v i : Nat) (hi : i < 16) : (v ||| ((1 : Nat) <<< i)) >>> 16 = v >>> 16 := by
  apply Nat.eq_of_testBit_eq
  intro j
  rw [Nat.testBit_shiftRight, Nat.testBit_shiftRight, Nat.testBit_or, shl_one_testBit]
  have hne : 16 + j ≠ i := by omega
  simp [hne]

lemma testBit_lor_bit_self (v i : Nat) : (v ||| ((1 : Nat) <<< i)).testBit i = true := by
  rw [Nat.testBit_or, shl_one_testBit]
  simp

lemma testBit_lor_bit_other (v b i : Nat) (hne : i ≠ b) :
    (v ||| ((1 : Nat) <<< b)).testBit i = v.testBit i := by
  rw [Nat.testBit_or, shl_one_testBit]
  simp [hne]

lemma testBit_lor_shl16_low (v k i : Nat) (hi : i < 16) :
    (v ||| (k <<< 16)).testBit i = v.testBit i := by
  rw [Nat.testBit_or, Nat.testBit_shiftLeft]
  have h : ¬ 16 ≤ i := by omega
  simp [h]

lemma testBit_land_mask16 (v i : Nat) (hi : i < 16) :
    (v &&& MASK16).testBit i = v.testBit i := by
  rw [Nat.testBit_and, mask16_testBit]
  simp [hi]

lemma wf_land_mask16 (v : Nat) : (v &&& MASK16) >>> 16 = 0 :=
  shr16_zero _ (land_mask16_lt v)

lemma shl16_lt (k : Nat) (hk : k ≤ 16) : k <<< 16 < 2 ^ 32 := by
  rw [Nat.shiftLeft_eq]
  calc k * 2 ^ 16 ≤ 16 * 2 ^ 16 := Nat.mul_le_mul_right _ hk
  _ < 2 ^ 32 := by decide

lemma shl_one_lt (i : Nat) (hi : i < 16) : (1 : Nat) <<< i < 2 ^ 32 := by
  rw [Nat.shiftLeft_eq, one_mul]
  calc 2 ^ i ≤ 2 ^ 15 := Nat.pow_le_pow_right (by decide) (by omega)
  _ < 2 ^ 32 := by decide

/-! ## Lemmas about scrubWord, the blocker scan, and serverOvercomeLock -/

lemma land_notbit_testBit (v b i : Nat) (hi : i < 32) (hne : i ≠ b) :
    (v &&& (U32MASK ^^^ ((1 : Nat) <<< b))).testBit i = v.testBit i := by
  by_cases hb32 : b < 32
  · rw [Nat.testBit_and, notBit_testBit _ _ hb32]
    have h1 : decide (i < 32) = true := by simp [hi]
    have h2 : decide (i = b) = false := by simp [hne]
    rw [h1, h2]
    simp
  · rw [Nat.testBit_and, Nat.testBit_xor, u32_testBit, shl_one_testBit]
    have h1 : decide (i < 32) = true := by simp [hi]
    have h2 : decide (i = b) = false := by simp [hne]
    rw [h1, h2]
    simp

lemma scrubWord_testBit (v b i : Nat) (hi : i < 16) (hne : i ≠ b) :
    (scrubWord v b).testBit i = v.testBit i := by
  have hbit := land_notbit_testBit v b i (by omega) hne
  simp only [scrubWord]
  split
  · rw [testBit_land_mask16 _ _ hi, hbit]
  · exact hbit

lemma scrubWord_wf (v b : Nat) (hv : v < 2 ^ 32) (hb : b < 16) :
    (scrubWord v b) >>> HMA_CLIENT_SLOTS = v >>> HMA_CLIENT_SLOTS ∨
    (scrubWord v b) >>> HMA_CLIENT_SLOTS = 0 := by
  simp only [scrubWord]
  split
  · right
    show _ >>> 16 = 0
    exact shr16_zero _ (land_mask16_lt _)
  · left
    show _ >>> 16 = v >>> 16
    exact wf_land_notbit v b hv hb

lemma scrubWord_lt (v b : Nat) (hv : v < 2 ^ 32) : scrubWord v b < 2 ^ 32 := by
  simp only [scrubWord]
  have h1 : v &&& (U32MASK ^^^ (1 <<< b)) ≤ v := Nat.and_le_left
  split
  · have h2 : (v &&& (U32MASK ^^^ (1 <<< b))) &&& MASK16 ≤ v &&& (U32MASK ^^^ (1 <<< b)) :=
      Nat.and_le_left
    omega
  · omega

lemma scrubWord_contrib (v b i : Nat) (hv : v < 2 ^ 32) (hb : b < 16) (hne : i ≠ b)
    (hi : i < 16) (h : clientContrib (scrubWord v b) i) : clientContrib v i := by
  rcases h with hbit | hwf
  · exact Or.inl (by rw [scrubWord_testBit v b i hi hne] at hbit; exact hbit)
  · rcases scrubWord_wf v b hv hb with heq | hz
    · exact Or.inr (heq ▸ hwf)
    · rw [hz] at hwf; omega

lemma findScanGo_spec (v c : Nat) :
    ∀ n i, (∃ j, i ≤ j ∧ j < i + n ∧ j ≠ c ∧ v.testBit j = true) →
      findScanGo v c n i < i + n ∧ findScanGo v c n i ≠ c ∧
      v.testBit (findScanGo v c n i) = true := by
  intro n
  induction n with
  | zero =>
    intro i h
    exfalso
    obtain ⟨j, h1, h2, -, -⟩ := h
    omega
  | succ n ih =>
    intro i h
    unfold findScanGo
    split
    · rename_i hcond
      exact ⟨by omega, hcond.1, hcond.2⟩
    · rename_i hcond
      obtain ⟨j, hij, hjn, hjc, hjb⟩ := h
      have hji : j ≠ i := by
        intro he
        subst he
        exact hcond ⟨hjc, hjb⟩
      have hrec := ih (i + 1) ⟨j, by omega, by omega, hjc, hjb⟩
      exact ⟨by omega, hrec.2.1, hrec.2.2⟩

lemma serverBlocker_bounds (v iClient : Nat) (hwf : v >>> HMA_CLIENT_SLOTS ≤ 16)
    (hconf : (v >>> HMA_CLIENT_SLOTS ≠ 0 ∧ v >>> HMA_CLIENT_SLOTS ≠ iClient + 1) ∨
      (∃ j, j < 16 ∧ j ≠ iClient ∧ v.testBit j = true)) :
    serverBlocker v iClient < 16 ∧ serverBlocker v iClient ≠ iClient := by
  have hC : HMA_CLIENT_SLOTS = 16 := rfl
  simp only [serverBlocker, serverWriteLocker]
  split
  · rename_i hscan
    have hexists : ∃ j, j < 16 ∧ j ≠ iClient ∧ v.testBit j = true := by
      rcases hconf with ⟨h1, h2⟩ | h
      · exfalso
        generalize hgen : v >>> HMA_CLIENT_SLOTS = wv at h1 h2 hscan
        rcases hscan with hlt | heq
        · omega
        · apply h2; omega
      · exact h
    obtain ⟨j, hj16, hjc, hjb⟩ := hexists
    have hspec := findScanGo_spec v iClient HMA_CLIENT_SLOTS 0
      ⟨j, by omega, by omega, hjc, hjb⟩
    show findBlockerScan v iClient < 16 ∧ findBlockerScan v iClient ≠ iClient
    unfold findBlockerScan
    exact ⟨by omega, hspec.2.1⟩
  · rename_i hdir
    push_neg at hdir
    generalize hgen : v >>> HMA_CLIENT_SLOTS = wv at hwf hdir ⊢
    obtain ⟨h1, h2⟩ := hdir
    constructor <;> omega

lemma mask_bit_exists (v iClient : Nat)
    (h : v &&& (MASK16 &&& (U32MASK ^^^ ((1 : Nat) <<< iClient))) ≠ 0) :
    ∃ j, j < 16 ∧ j ≠ iClient ∧ v.testBit j = true := by
  obtain ⟨j, hj⟩ := Nat.ne_zero_implies_bit_true h
  rw [Nat.testBit_and, Nat.testBit_and, mask16_testBit] at hj
  have hj16 : j < 16 := by
    by_contra hge
    simp [hge] at hj
  have hjc : j ≠ iClient := by
    intro he
    subst he
    rw [notBit_testBit _ _ (by omega)] at hj
    simp at hj
  refine ⟨j, hj16, hjc, ?_⟩
  simp only [Bool.and_eq_true] at hj
  exact hj.1

lemma pageLockIdx_range (pgno : Nat) :
    1 + HMA_CLIENT_SLOTS ≤ pageLockIdx pgno ∧
    pageLockIdx pgno < 1 + HMA_CLIENT_SLOTS + HMA_PAGELOCK_SLOTS := by
  unfold pageLockIdx
  have hm : pgno % HMA_PAGELOCK_SLOTS < HMA_PAGELOCK_SLOTS :=
    Nat.mod_lt pgno (by decide)
  omega

lemma pageLockIdx_mod (pgno : Nat) :
    pageLockIdx (pgno % HMA_PAGELOCK_SLOTS) = pageLockIdx pgno := by
  unfold pageLockIdx
  rw [Nat.mod_mod]

lemma scrubMap_page (m : Nat → Nat) (b pgno : Nat) :
    scrubMap m b (pageLockIdx pgno) = scrubWord (m (pageLockIdx pgno)) b := by
  unfold scrubMap
  rw [if_pos (pageLockIdx_range pgno)]

lemma serverOvercomeLock_cases (env : Env) (iClient : Nat) (aClient : Nat → Bool)
    (bBlock : Bool) (m : Nat → Nat) (v : Nat) :
    (serverOvercomeLock env iClient aClient bBlock m v).2.2 = m ∨
    ((serverOvercomeLock env iClient aClient bBlock m v).2.2 =
        scrubMap m (serverBlocker v iClient) ∧
      (serverOvercomeLock env iClient aClient bBlock m v).1 = SQLITE_OK ∧
      (serverOvercomeLock env iClient aClient bBlock m v).2.1 = true) := by
  simp only [serverOvercomeLock, rollbackClientMap]
  split
  · left; rfl
  · split
    · split
      · rename_i hrc
        right
        exact ⟨rfl, hrc, by simp [hrc]⟩
      · left; rfl
    · split
      · split
        · split
          · left; rfl
          · split
            · left; rfl
            · left; rfl
        · left; rfl
      · left; rfl

/-! ## Claim C1 -/

/-- Claim C1 (code_bug evidence): with all sixteen client slots occupied by
local clients, no slot is claimable, yet sqlite3ServerConnect returns
SQLITE_OK — not SQLITE_BUSY — with the out-of-range client id 16, and writes
the value 1 into mapped word 17, which is page-lock slot 0 and not any client
slot (the scan leaves i = 16 and the post-loop test i > HMA_CLIENT_SLOTS
never fires). -/
theorem connect_no_free_slot_bug :
    (sqlite3ServerConnect c1Env c1Client (fun _ => 0)).1 = SQLITE_OK ∧
    (sqlite3ServerConnect c1Env c1Client (fun _ => 0)).2.1 = 16 ∧
    (sqlite3ServerConnect c1Env c1Client (fun _ => 0)).2.2.2 (1 + HMA_CLIENT_SLOTS) = 1 ∧
    1 + HMA_CLIENT_SLOTS = pageLockIdx 0 ∧
    SQLITE_OK ≠ SQLITE_BUSY := by
  refine ⟨rfl, rfl, rfl, rfl, by decide⟩

/-! ## Claim C5 -/

/-- Claim C5 (counterexample): an unexpected OS failure (errno 9, not a
deadlock) makes posixLock return SQLITE_BUSY — never SQLITE_ERROR — whether
the request was blocking or not, so the claim's clause that unexpected OS
failures yield ERROR is false on the code. -/
theorem posixLock_no_error_counterexample :
    posixLock 1 SERVER_WRITE_LOCK false (OsRes.err 9) = SQLITE_BUSY ∧
    posixLock 1 SERVER_WRITE_LOCK true (OsRes.err 9) = SQLITE_BUSY ∧
    SQLITE_BUSY ≠ SQLITE_ERROR := by
  refine ⟨rfl, rfl, by decide⟩

/-- Claim C5 (amended): posixLock places its advisory lock on the single byte
at offset iSlot*4, and returns SQLITE_OK exactly on fcntl success,
SQLITE_BUSY_DEADLOCK exactly when a blocking request fails with EDEADLK,
SQLITE_BUSY on every other failure (non-blocking contention and unexpected OS
errors alike), and never SQLITE_ERROR. -/
theorem posixLock_spec (iSlot eLock : Nat) (bBlock : Bool) (res : OsRes) :
    posixLockRange iSlot = ⟨iSlot * 4, 1⟩ ∧
    (posixLock iSlot eLock bBlock res = SQLITE_OK ↔ res = OsRes.ok) ∧
    (posixLock iSlot eLock bBlock res = SQLITE_BUSY_DEADLOCK ↔
      bBlock = true ∧ res = OsRes.err EDEADLK) ∧
    (posixLock iSlot eLock bBlock res = SQLITE_BUSY ↔
      res ≠ OsRes.ok ∧ ¬(bBlock = true ∧ res = OsRes.err EDEADLK)) ∧
    posixLock iSlot eLock bBlock res ≠ SQLITE_ERROR := by
  refine ⟨rfl, ?_, ?_, ?_, ?_⟩ <;>
    cases res with
    | ok =>
      simp [posixLock, SQLITE_OK, SQLITE_BUSY, SQLITE_BUSY_DEADLOCK, SQLITE_ERROR]
    | err e =>
      by_cases hd : bBlock = true ∧ e = EDEADLK <;>
        simp_all [posixLock, SQLITE_OK, SQLITE_BUSY, SQLITE_BUSY_DEADLOCK, SQLITE_ERROR,
          EDEADLK] <;>
        split <;> simp_all

/-! ## Claim C8 -/

/-- Claim C8 (code_bug evidence): sqlite3ServerEnd releases a recorded page 0
with prior cumulative WRITER time 0 and elapsed time 600000 microseconds; the
cumulative total moves from 0 to 600000 and so does not change its integer
number of seconds, yet exactly one log notice is emitted, because the C
condition adds the elapsed time into nUsWrite first and then compares
nUsWrite/1000000 with (nUsWrite + nUs)/1000000 — the already-updated total
against the total plus the elapsed time a second time. -/
theorem server_end_log_condition_bug :
    (sqlite3ServerEnd envT6 stWriter0).2.2 = 1 ∧
    Int.tdiv stWriter0.nUsWrite 1000000 =
      Int.tdiv (stWriter0.nUsWrite + (envT6.now - stWriter0.iUsWrite)) 1000000 := by
  refine ⟨rfl, by decide⟩

/-! ## Claim C2 -/

/-- Claim C2 (counterexample): from a fresh connection and an all-zero map,
sqlite3ServerBegin is not the page-0 composition the claim describes: the
source takes the SHARED lock on page 1 (its history records page 1 and its
slot write lands at word 18), while the spec-following serverBeginSpec records
page 0; the two disagree on the same input. -/
theorem server_begin_page_counterexample :
    ¬ (sqlite3ServerBegin envA 4 stZero = serverBeginSpec envA 4 stZero) := by
  intro h
  have h2 : (some [1] : Option (List Nat)) = some [0] :=
    congrArg (fun o => Option.map (fun r : Nat × ServerState => r.2.aLock) o) h
  exact absurd h2 (by decide)

/-- Claim C2 (amended): sqlite3ServerBegin first takes a blocking OS
writer-lock on the connection's own client-slot byte; a failure there is
returned unchanged with no page-lock call, otherwise begin is exactly
sqlite3ServerLock(p, pgno=1, write=false, blocking=true) — the SHARED lock is
taken on page 1, not page 0 — and begin returns SQLITE_OK exactly when both
the OS writer-lock and the page-1 SHARED lock succeed. -/
theorem server_begin_steps (env : Env) (fuel : Nat) (st : ServerState) :
    (posixLock (st.iClient + 1) SERVER_WRITE_LOCK true env.beginRes ≠ SQLITE_OK →
      sqlite3ServerBegin env fuel st =
        some (posixLock (st.iClient + 1) SERVER_WRITE_LOCK true env.beginRes, st)) ∧
    (posixLock (st.iClient + 1) SERVER_WRITE_LOCK true env.beginRes = SQLITE_OK →
      sqlite3ServerBegin env fuel st = sqlite3ServerLock env fuel st 1 false true) ∧
    (∀ rc st1, sqlite3ServerBegin env fuel st = some (rc, st1) →
      (rc = SQLITE_OK ↔
        posixLock (st.iClient + 1) SERVER_WRITE_LOCK true env.beginRes = SQLITE_OK ∧
        ∃ st2, sqlite3ServerLock env fuel st 1 false true = some (SQLITE_OK, st2))) := by
  by_cases h : posixLock (st.iClient + 1) SERVER_WRITE_LOCK true env.beginRes = SQLITE_OK
  · refine ⟨fun hne => absurd h hne, fun _ => by simp [sqlite3ServerBegin, h], ?_⟩
    intro rc st1 hb
    rw [show sqlite3ServerBegin env fuel st = sqlite3ServerLock env fuel st 1 false true by
      simp [sqlite3ServerBegin, h]] at hb
    constructor
    · intro hrc
      subst hrc
      exact ⟨h, st1, hb⟩
    · rintro ⟨-, st2, h2⟩
      exact congrArg Prod.fst (Option.some.inj (hb.symm.trans h2))
  · refine ⟨fun _ => by simp [sqlite3ServerBegin, h], fun hok => absurd hok h, ?_⟩
    intro rc st1 hb
    rw [show sqlite3ServerBegin env fuel st =
        some (posixLock (st.iClient + 1) SERVER_WRITE_LOCK true env.beginRes, st) by
      simp [sqlite3ServerBegin, h]] at hb
    have hrc : posixLock (st.iClient + 1) SERVER_WRITE_LOCK true env.beginRes = rc :=
      congrArg Prod.fst (Option.some.inj hb)
    constructor
    · intro hrcOk
      exact absurd (hrc.trans hrcOk) h
    · rintro ⟨hok, -⟩
      exact absurd hok h

/-- Claim C2 (witness): the amended statement instantiated on the zero state,
with the OS writer-lock succeeding. -/
theorem server_begin_steps_witness :
    posixLock (stZero.iClient + 1) SERVER_WRITE_LOCK true envA.beginRes = SQLITE_OK ∧
    sqlite3ServerBegin envA 4 stZero = sqlite3ServerLock envA 4 stZero 1 false true :=
  ⟨rfl, (server_begin_steps envA 4 stZero).2.1 rfl⟩

/-! ## Structural decomposition of sqlite3ServerLock -/

/-- The history-buffer growth step of sqlite3ServerLock (server.c lines
506-517) as a state function: when the history is full, nAlloc goes from 0 to
128 or doubles. -/
def growState (st : ServerState) : ServerState :=
  if st.aLock.length = st.nAlloc then
    { st with nAlloc := if st.nAlloc = 0 then 128 else st.nAlloc * 2 }
  else st

/-- The fast-path test of sqlite3ServerLock (server.c lines 524-528): the
requested lock is already held. -/
def heldTest (st : ServerState) (pgno : Nat) (bWrite : Bool) : Bool :=
  if bWrite then decide (serverWriteLocker (st.aMap (pageLockIdx pgno)) = (st.iClient : Int))
  else (st.aMap (pageLockIdx pgno)).testBit st.iClient

lemma growState_frame (st : ServerState) :
    (growState st).aMap = st.aMap ∧ (growState st).aLock = st.aLock ∧
    (growState st).iClient = st.iClient ∧ (growState st).aClient = st.aClient ∧
    (growState st).iUsWrite = st.iUsWrite ∧ (growState st).nUsWrite = st.nUsWrite := by
  unfold growState
  split <;> exact ⟨rfl, rfl, rfl, rfl, rfl, rfl⟩

lemma sqlite3ServerLock_nomem (env : Env) (fuel : Nat) (st : ServerState) (pgno : Nat)
    (bWrite bBlock : Bool) (h1 : st.aLock.length = st.nAlloc) (h2 : env.allocOk = false) :
    sqlite3ServerLock env fuel st pgno bWrite bBlock =
      some (SQLITE_NOMEM, serverLockFinish env st pgno) := by
  simp [sqlite3ServerLock, h1, h2]

lemma sqlite3ServerLock_fast (env : Env) (fuel : Nat) (st : ServerState) (pgno : Nat)
    (bWrite bBlock : Bool) (halloc : ¬(st.aLock.length = st.nAlloc ∧ env.allocOk = false))
    (hheld : heldTest st pgno bWrite = true) :
    sqlite3ServerLock env fuel st pgno bWrite bBlock =
      some (SQLITE_OK, serverLockFinish env (growState st) pgno) := by
  by_cases hg : st.aLock.length = st.nAlloc <;> cases bWrite <;>
    simp_all [sqlite3ServerLock, heldTest, growState]

lemma sqlite3ServerLock_slow_eq (env : Env) (fuel : Nat) (st : ServerState) (pgno : Nat)
    (bWrite bBlock : Bool) (halloc : ¬(st.aLock.length = st.nAlloc ∧ env.allocOk = false))
    (hheld : heldTest st pgno bWrite = false) :
    sqlite3ServerLock env fuel st pgno bWrite bBlock =
      match serverLockLoop env st.iClient st.aClient pgno bWrite bBlock fuel st.aMap
          (st.aMap (pageLockIdx pgno)) false with
      | none => none
      | some (rc, m1, r1) =>
        some (rc, serverLockFinish env
          { growState st with
            aLock := (growState st).aLock ++ [pgno]
            aMap := if rc ≠ SQLITE_OK ∧ r1 = true then
                setIdx m1 (pageLockIdx pgno) ((m1 (pageLockIdx pgno)) &&& MASK16)
              else m1 } pgno) := by
  by_cases hg : st.aLock.length = st.nAlloc <;> cases bWrite <;>
    simp_all [sqlite3ServerLock, heldTest, growState]

lemma sqlite3ServerLock_slow_inv (env : Env) (fuel : Nat) (st : ServerState) (pgno : Nat)
    (bWrite bBlock : Bool) (rc : Nat) (st1 : ServerState)
    (halloc : ¬(st.aLock.length = st.nAlloc ∧ env.allocOk = false))
    (hheld : heldTest st pgno bWrite = false)
    (h : sqlite3ServerLock env fuel st pgno bWrite bBlock = some (rc, st1)) :
    ∃ m1 r1,
      serverLockLoop env st.iClient st.aClient pgno bWrite bBlock fuel st.aMap
        (st.aMap (pageLockIdx pgno)) false = some (rc, m1, r1) ∧
      st1 = serverLockFinish env
        { growState st with
          aLock := (growState st).aLock ++ [pgno]
          aMap := if rc ≠ SQLITE_OK ∧ r1 = true then
              setIdx m1 (pageLockIdx pgno) ((m1 (pageLockIdx pgno)) &&& MASK16)
            else m1 } pgno := by
  rw [sqlite3ServerLock_slow_eq env fuel st pgno bWrite bBlock halloc hheld] at h
  cases hloop : serverLockLoop env st.iClient st.aClient pgno bWrite bBlock fuel st.aMap
      (st.aMap (pageLockIdx pgno)) false with
  | none => rw [hloop] at h; exact absurd h (by simp)
  | some t =>
    obtain ⟨rc2, m1, r1⟩ := t
    rw [hloop] at h
    simp only [Option.some.injEq, Prod.mk.injEq] at h
    obtain ⟨h1, h2⟩ := h
    subst h1
    exact ⟨m1, r1, rfl, h2.symm⟩

/-! ## Claim C9 -/

/-- Claim C9: whenever sqlite3ServerLock returns with pgno = 0 — fast path,
fresh acquisition, read request, or failure with NOMEM or BUSY_DEADLOCK — the
WRITER start timestamp iUsWrite has been overwritten with the current time,
and every returning call with pgno ≠ 0 leaves iUsWrite unchanged. -/
theorem server_lock_sets_iUsWrite (env : Env) (fuel : Nat) (st : ServerState)
    (pgno : Nat) (bWrite bBlock : Bool) (rc : Nat) (st1 : ServerState)
    (h : sqlite3ServerLock env fuel st pgno bWrite bBlock = some (rc, st1)) :
    (pgno = 0 → st1.iUsWrite = env.now) ∧ (pgno ≠ 0 → st1.iUsWrite = st.iUsWrite) := by
  have hfin : ∀ s : ServerState, s.iUsWrite = st.iUsWrite →
      (pgno = 0 → (serverLockFinish env s pgno).iUsWrite = env.now) ∧
      (pgno ≠ 0 → (serverLockFinish env s pgno).iUsWrite = st.iUsWrite) := by
    intro s hs
    unfold serverLockFinish
    by_cases hp : pgno = 0 <;> simp [hp, hs]
  by_cases ha : st.aLock.length = st.nAlloc ∧ env.allocOk = false
  · rw [sqlite3ServerLock_nomem env fuel st pgno bWrite bBlock ha.1 ha.2] at h
    have h2 : serverLockFinish env st pgno = st1 :=
      congrArg Prod.snd (Option.some.inj h)
    exact h2 ▸ hfin st rfl
  · by_cases hh : heldTest st pgno bWrite = true
    · rw [sqlite3ServerLock_fast env fuel st pgno bWrite bBlock ha hh] at h
      have h2 : serverLockFinish env (growState st) pgno = st1 :=
        congrArg Prod.snd (Option.some.inj h)
      exact h2 ▸ hfin (growState st) (growState_frame st).2.2.2.2.1
    · obtain ⟨m1, r1, -, h2⟩ := sqlite3ServerLock_slow_inv env fuel st pgno bWrite bBlock
        rc st1 ha (by simpa using hh) h
      exact h2 ▸ hfin _ (growState_frame st).2.2.2.2.1

/-- Claim C9 (witness): a concrete read lock on page 0 from the zero state
stamps iUsWrite with the oracle clock, and one on page 5 leaves it unchanged. -/
theorem server_lock_sets_iUsWrite_witness :
    (∃ rc st1, sqlite3ServerLock envA 1 stZero 0 false false = some (rc, st1) ∧
      st1.iUsWrite = envA.now) ∧
    (∃ rc st1, sqlite3ServerLock envA 1 stZero 5 false false = some (rc, st1) ∧
      st1.iUsWrite = stZero.iUsWrite) := by
  constructor
  · exact ⟨_, _, rfl,
      (server_lock_sets_iUsWrite envA 1 stZero 0 false false _ _ rfl).1 rfl⟩
  · exact ⟨_, _, rfl,
      (server_lock_sets_iUsWrite envA 1 stZero 5 false false _ _ rfl).2 (by decide)⟩

/-! ## Claim C10 -/

/-- Claim C10: when sqlite3ServerLock takes the slow path (the requested lock
is not already held and the history buffer grew successfully), the page is
appended to the connection's lock history, and it remains there when the call
returns a non-OK code — the error path never removes it — so the next
sqlite3ServerEnd will process that page even though this call acquired no
lock. -/
theorem server_lock_history_kept_on_failure (env : Env) (fuel : Nat)
    (st : ServerState) (pgno : Nat) (bWrite bBlock : Bool) (rc : Nat) (st1 : ServerState)
    (halloc : ¬(st.aLock.length = st.nAlloc ∧ env.allocOk = false))
    (hheld : heldTest st pgno bWrite = false)
    (h : sqlite3ServerLock env fuel st pgno bWrite bBlock = some (rc, st1))
    (hrc : rc ≠ SQLITE_OK) :
    st1.aLock = st.aLock ++ [pgno] ∧ pgno ∈ st1.aLock := by
  obtain ⟨m1, r1, -, h2⟩ :=
    sqlite3ServerLock_slow_inv env fuel st pgno bWrite bBlock rc st1 halloc hheld h
  have hLock : st1.aLock = (growState st).aLock ++ [pgno] := by
    rw [h2]
    unfold serverLockFinish
    split <;> rfl
  rw [(growState_frame st).2.1] at hLock
  refine ⟨hLock, ?_⟩
  rw [hLock]
  simp

/-- Claim C10 (witness): a non-blocking read-lock request on page 5 against a
live local writer fails with SQLITE_BUSY_DEADLOCK yet leaves page 5 recorded
in the history. -/
theorem server_lock_history_kept_on_failure_witness :
    ¬(stPeerBlocked.aLock.length = stPeerBlocked.nAlloc ∧ envA.allocOk = false) ∧
    heldTest stPeerBlocked 5 false = false ∧
    ∃ rc st1, sqlite3ServerLock envA 1 stPeerBlocked 5 false false = some (rc, st1) ∧
      rc ≠ SQLITE_OK ∧ st1.aLock = stPeerBlocked.aLock ++ [5] ∧ 5 ∈ st1.aLock := by
  refine ⟨by decide, by decide, _, _, rfl, by decide, ?_, ?_⟩
  · exact (server_lock_history_kept_on_failure envA 1 stPeerBlocked 5 false false _ _
      (by decide) (by decide) rfl (by decide)).1
  · exact (server_lock_history_kept_on_failure envA 1 stPeerBlocked 5 false false _ _
      (by decide) (by decide) rfl (by decide)).2

/-! ## Claim C7 -/

lemma serverOvercomeLock_local (env : Env) (iClient : Nat) (aClient : Nat → Bool)
    (bBlock : Bool) (m : Nat → Nat) (v : Nat)
    (hpeer : aClient (serverBlocker v iClient) = true) :
    serverOvercomeLock env iClient aClient bBlock m v = (SQLITE_OK, false, m) := by
  simp [serverOvercomeLock, hpeer]

lemma serverLockLoop_deadlock_step (env : Env) (iClient : Nat) (aClient : Nat → Bool)
    (pgno : Nat) (bWrite : Bool) (fuel : Nat) (m : Nat → Nat) (v : Nat) (bRes : Bool)
    (hconf : (0 ≤ serverWriteLocker v ∧ serverWriteLocker v ≠ (iClient : Int)) ∨
      v &&& (if bWrite then MASK16 &&& (U32MASK ^^^ (1 <<< iClient)) else 0) ≠ 0)
    (hpeer : aClient (serverBlocker v iClient) = true) :
    serverLockLoop env iClient aClient pgno bWrite false (fuel + 1) m v bRes =
      some (SQLITE_BUSY_DEADLOCK, m, bRes) := by
  simp only [serverLockLoop]
  rw [if_pos hconf]
  have hinst : ¬(serverWriteLocker v < 0 ∧ bWrite = true ∧ false = true) := by simp
  rw [if_neg hinst]
  rw [serverOvercomeLock_local env iClient aClient false m v hpeer]
  simp [SQLITE_OK, SQLITE_BUSY_DEADLOCK]

/-- Claim C7: when the blocker client chosen from the conflicting page-lock
word has a non-null local aClient entry (a live local peer), serverOvercomeLock
does nothing and returns SQLITE_OK with bRetry false, and a non-blocking
sqlite3ServerLock call whose conflict is attributed to such a blocker surfaces
SQLITE_BUSY_DEADLOCK to the caller. -/
theorem overcome_local_peer_deadlock :
    (∀ env iClient aClient bBlock m v, aClient (serverBlocker v iClient) = true →
      serverOvercomeLock env iClient aClient bBlock m v = (SQLITE_OK, false, m)) ∧
    (∀ env fuel st pgno bWrite rc st1,
      fuel ≠ 0 →
      ¬(st.aLock.length = st.nAlloc ∧ env.allocOk = false) →
      heldTest st pgno bWrite = false →
      ((0 ≤ serverWriteLocker (st.aMap (pageLockIdx pgno)) ∧
          serverWriteLocker (st.aMap (pageLockIdx pgno)) ≠ (st.iClient : Int)) ∨
        (st.aMap (pageLockIdx pgno)) &&&
          (if bWrite then MASK16 &&& (U32MASK ^^^ (1 <<< st.iClient)) else 0) ≠ 0) →
      st.aClient (serverBlocker (st.aMap (pageLockIdx pgno)) st.iClient) = true →
      sqlite3ServerLock env fuel st pgno bWrite false = some (rc, st1) →
      rc = SQLITE_BUSY_DEADLOCK) := by
  constructor
  · intro env iClient aClient bBlock m v hpeer
    exact serverOvercomeLock_local env iClient aClient bBlock m v hpeer
  · intro env fuel st pgno bWrite rc st1 hf halloc hheld hconf hpeer h
    obtain ⟨f, rfl⟩ := Nat.exists_eq_succ_of_ne_zero hf
    rw [sqlite3ServerLock_slow_eq env (f + 1) st pgno bWrite false halloc hheld] at h
    rw [serverLockLoop_deadlock_step env st.iClient st.aClient pgno bWrite f st.aMap
      (st.aMap (pageLockIdx pgno)) false hconf hpeer] at h
    exact (congrArg Prod.fst (Option.some.inj h)).symm

/-- Claim C7 (witness): page 5's slot word names client 1 as writer, client 1
is a live local peer; the overcome call is a no-op returning (OK, no retry)
and the non-blocking lock call returns SQLITE_BUSY_DEADLOCK. -/
theorem overcome_local_peer_deadlock_witness :
    serverOvercomeLock envA 0 stPeerBlocked.aClient false stPeerBlocked.aMap 131072 =
      (SQLITE_OK, false, stPeerBlocked.aMap) ∧
    ∃ rc st1, sqlite3ServerLock envA 1 stPeerBlocked 5 false false = some (rc, st1) ∧
      rc = SQLITE_BUSY_DEADLOCK := by
  constructor
  · exact overcome_local_peer_deadlock.1 envA 0 stPeerBlocked.aClient false
      stPeerBlocked.aMap 131072 (by decide)
  · exact ⟨_, _, rfl, overcome_local_peer_deadlock.2 envA 1 stPeerBlocked 5 false _ _
      (by decide) (by decide) (by decide) (by decide) (by decide) rfl⟩

/-! ## Claim C4 -/

lemma setIdx_self (f : Nat → Nat) (i n : Nat) : setIdx f i n i = n := by
  simp [setIdx]

lemma setIdx_sz (f : Nat → Nat) (i n : Nat) (hf : ∀ j, f j < 2 ^ 32) (hn : n < 2 ^ 32) :
    ∀ j, setIdx f i n j < 2 ^ 32 := by
  intro j
  unfold setIdx
  split
  · exact hn
  · exact hf j

lemma scrubMap_sz (m : Nat → Nat) (b : Nat) (hm : ∀ j, m j < 2 ^ 32) :
    ∀ j, scrubMap m b j < 2 ^ 32 := by
  intro j
  unfold scrubMap
  split
  · exact scrubWord_lt _ _ (hm j)
  · exact hm j

lemma wl_lt_zero_iff (v : Nat) : serverWriteLocker v < 0 ↔ v >>> HMA_CLIENT_SLOTS = 0 := by
  unfold serverWriteLocker
  generalize v >>> HMA_CLIENT_SLOTS = n
  omega

lemma wl_ge_ne_iff (v iClient : Nat) :
    (0 ≤ serverWriteLocker v ∧ serverWriteLocker v ≠ (iClient : Int)) ↔
    (v >>> HMA_CLIENT_SLOTS ≠ 0 ∧ v >>> HMA_CLIENT_SLOTS ≠ iClient + 1) := by
  unfold serverWriteLocker
  generalize v >>> HMA_CLIENT_SLOTS = n
  constructor
  · rintro ⟨h1, h2⟩
    constructor <;> omega
  · rintro ⟨h1, h2⟩
    constructor <;> omega

lemma conflict_pack (v iClient : Nat) (bWrite : Bool)
    (hconf : (0 ≤ serverWriteLocker v ∧ serverWriteLocker v ≠ (iClient : Int)) ∨
      v &&& (if bWrite then MASK16 &&& (U32MASK ^^^ (1 <<< iClient)) else 0) ≠ 0) :
    (v >>> HMA_CLIENT_SLOTS ≠ 0 ∧ v >>> HMA_CLIENT_SLOTS ≠ iClient + 1) ∨
    (∃ j, j < 16 ∧ j ≠ iClient ∧ v.testBit j = true) := by
  rcases hconf with h | h
  · exact Or.inl ((wl_ge_ne_iff v iClient).mp h)
  · cases bWrite
    · simp at h
    · exact Or.inr (mask_bit_exists v iClient (by simpa using h))

lemma serverLockLoop_acquire (env : Env) (iClient : Nat) (aClient : Nat → Bool)
    (pgno : Nat) (bWrite bBlock : Bool) (f : Nat) (m : Nat → Nat) (v : Nat) (bRes : Bool)
    (hnc : ¬((0 ≤ serverWriteLocker v ∧ serverWriteLocker v ≠ (iClient : Int)) ∨
      v &&& (if bWrite then MASK16 &&& (U32MASK ^^^ (1 <<< iClient)) else 0) ≠ 0)) :
    serverLockLoop env iClient aClient pgno bWrite bBlock (f + 1) m v bRes =
      some (SQLITE_OK, setIdx m (pageLockIdx pgno)
        ((v ||| (1 <<< iClient)) |||
          (if bWrite then (iClient + 1) <<< HMA_CLIENT_SLOTS else 0)), bRes) := by
  simp only [serverLockLoop]
  rw [if_neg hnc]

lemma serverLockLoop_conflict_noinstall (env : Env) (iClient : Nat) (aClient : Nat → Bool)
    (pgno : Nat) (bWrite bBlock : Bool) (f : Nat) (m : Nat → Nat) (v : Nat) (bRes : Bool)
    (hconf : (0 ≤ serverWriteLocker v ∧ serverWriteLocker v ≠ (iClient : Int)) ∨
      v &&& (if bWrite then MASK16 &&& (U32MASK ^^^ (1 <<< iClient)) else 0) ≠ 0)
    (hin : ¬(serverWriteLocker v < 0 ∧ bWrite = true ∧ bBlock = true)) :
    serverLockLoop env iClient aClient pgno bWrite bBlock (f + 1) m v bRes =
      (if (serverOvercomeLock env iClient aClient bBlock m v).1 ≠ SQLITE_OK then
        some ((serverOvercomeLock env iClient aClient bBlock m v).1,
          (serverOvercomeLock env iClient aClient bBlock m v).2.2, bRes)
      else if (serverOvercomeLock env iClient aClient bBlock m v).2.1 = true then
        serverLockLoop env iClient aClient pgno bWrite bBlock f
          ((serverOvercomeLock env iClient aClient bBlock m v).2.2)
          ((serverOvercomeLock env iClient aClient bBlock m v).2.2 (pageLockIdx pgno)) bRes
      else some (SQLITE_BUSY_DEADLOCK,
        (serverOvercomeLock env iClient aClient bBlock m v).2.2, bRes)) := by
  simp only [serverLockLoop]
  rw [if_pos hconf, if_neg hin]

lemma serverLockLoop_conflict_install (env : Env) (iClient : Nat) (aClient : Nat → Bool)
    (pgno : Nat) (bWrite bBlock : Bool) (f : Nat) (m : Nat → Nat) (v : Nat) (bRes : Bool)
    (hconf : (0 ≤ serverWriteLocker v ∧ serverWriteLocker v ≠ (iClient : Int)) ∨
      v &&& (if bWrite then MASK16 &&& (U32MASK ^^^ (1 <<< iClient)) else 0) ≠ 0)
    (hin : serverWriteLocker v < 0 ∧ bWrite = true ∧ bBlock = true) :
    serverLockLoop env iClient aClient pgno bWrite bBlock (f + 1) m v bRes =
      (if (serverOvercomeLock env iClient aClient bBlock
            (setIdx m (pageLockIdx pgno) (v ||| ((iClient + 1) <<< HMA_CLIENT_SLOTS)))
            (v ||| ((iClient + 1) <<< HMA_CLIENT_SLOTS))).1 ≠ SQLITE_OK then
        some ((serverOvercomeLock env iClient aClient bBlock
            (setIdx m (pageLockIdx pgno) (v ||| ((iClient + 1) <<< HMA_CLIENT_SLOTS)))
            (v ||| ((iClient + 1) <<< HMA_CLIENT_SLOTS))).1,
          (serverOvercomeLock env iClient aClient bBlock
            (setIdx m (pageLockIdx pgno) (v ||| ((iClient + 1) <<< HMA_CLIENT_SLOTS)))
            (v ||| ((iClient + 1) <<< HMA_CLIENT_SLOTS))).2.2, true)
      else if (serverOvercomeLock env iClient aClient bBlock
            (setIdx m (pageLockIdx pgno) (v ||| ((iClient + 1) <<< HMA_CLIENT_SLOTS)))
            (v ||| ((iClient + 1) <<< HMA_CLIENT_SLOTS))).2.1 = true then
        serverLockLoop env iClient aClient pgno bWrite bBlock f
          ((serverOvercomeLock env iClient aClient bBlock
            (setIdx m (pageLockIdx pgno) (v ||| ((iClient + 1) <<< HMA_CLIENT_SLOTS)))
            (v ||| ((iClient + 1) <<< HMA_CLIENT_SLOTS))).2.2)
          ((serverOvercomeLock env iClient aClient bBlock
            (setIdx m (pageLockIdx pgno) (v ||| ((iClient + 1) <<< HMA_CLIENT_SLOTS)))
            (v ||| ((iClient + 1) <<< HMA_CLIENT_SLOTS))).2.2 (pageLockIdx pgno)) true
      else some (SQLITE_BUSY_DEADLOCK,
        (serverOvercomeLock env iClient aClient bBlock
            (setIdx m (pageLockIdx pgno) (v ||| ((iClient + 1) <<< HMA_CLIENT_SLOTS)))
            (v ||| ((iClient + 1) <<< HMA_CLIENT_SLOTS))).2.2, true)) := by
  simp only [serverLockLoop]
  rw [if_pos hconf, if_pos hin]

lemma serverLockLoop_fail_frame (env : Env) (iClient : Nat) (aClient : Nat → Bool)
    (pgno : Nat) (bWrite bBlock : Bool) (v0 : Nat) (hiC : iClient < 16) :
    ∀ fuel m v bRes rc m1 r1,
      (∀ j, m j < 2 ^ 32) →
      m (pageLockIdx pgno) = v →
      v >>> HMA_CLIENT_SLOTS ≤ 16 →
      v.testBit iClient = v0.testBit iClient →
      (v >>> HMA_CLIENT_SLOTS = iClient + 1 →
        bRes = true ∨ v0 >>> HMA_CLIENT_SLOTS = iClient + 1) →
      serverLockLoop env iClient aClient pgno bWrite bBlock fuel m v bRes =
        some (rc, m1, r1) →
      rc ≠ SQLITE_OK →
      (m1 (pageLockIdx pgno)).testBit iClient = v0.testBit iClient ∧
      ((m1 (pageLockIdx pgno)) >>> HMA_CLIENT_SLOTS = iClient + 1 →
        r1 = true ∨ v0 >>> HMA_CLIENT_SLOTS = iClient + 1) ∧
      (m1 (pageLockIdx pgno)) < 2 ^ 32 := by
  intro fuel
  induction fuel with
  | zero =>
    intro m v bRes rc m1 r1 _ _ _ _ _ h _
    exact absurd h (by simp [serverLockLoop])
  | succ f ih =>
    intro m v bRes rc m1 r1 hsz hsync hwf hbit himp h hrc
    have main : ∀ (mX : Nat → Nat) (vX : Nat) (rX : Bool),
        (∀ j, mX j < 2 ^ 32) →
        mX (pageLockIdx pgno) = vX →
        vX >>> HMA_CLIENT_SLOTS ≤ 16 →
        vX.testBit iClient = v0.testBit iClient →
        (vX >>> HMA_CLIENT_SLOTS = iClient + 1 →
          rX = true ∨ v0 >>> HMA_CLIENT_SLOTS = iClient + 1) →
        ((vX >>> HMA_CLIENT_SLOTS ≠ 0 ∧ vX >>> HMA_CLIENT_SLOTS ≠ iClient + 1) ∨
          (∃ j, j < 16 ∧ j ≠ iClient ∧ vX.testBit j = true)) →
        (if (serverOvercomeLock env iClient aClient bBlock mX vX).1 ≠ SQLITE_OK then
            some ((serverOvercomeLock env iClient aClient bBlock mX vX).1,
              (serverOvercomeLock env iClient aClient bBlock mX vX).2.2, rX)
          else if (serverOvercomeLock env iClient aClient bBlock mX vX).2.1 = true then
            serverLockLoop env iClient aClient pgno bWrite bBlock f
              ((serverOvercomeLock env iClient aClient bBlock mX vX).2.2)
              ((serverOvercomeLock env iClient aClient bBlock mX vX).2.2 (pageLockIdx pgno)) rX
          else some (SQLITE_BUSY_DEADLOCK,
            (serverOvercomeLock env iClient aClient bBlock mX vX).2.2, rX)) =
          some (rc, m1, r1) →
        (m1 (pageLockIdx pgno)).testBit iClient = v0.testBit iClient ∧
        ((m1 (pageLockIdx pgno)) >>> HMA_CLIENT_SLOTS = iClient + 1 →
          r1 = true ∨ v0 >>> HMA_CLIENT_SLOTS = iClient + 1) ∧
        (m1 (pageLockIdx pgno)) < 2 ^ 32 := by
      intro mX vX rX hszX hsyncX hwfX hbitX himpX hpack hX
      rcases hoc : serverOvercomeLock env iClient aClient bBlock mX vX with ⟨orc, oret, om⟩
      have hcase := serverOvercomeLock_cases env iClient aClient bBlock mX vX
      rw [hoc] at hcase hX
      dsimp only at hcase hX
      have homX : om = mX ∨ (om = scrubMap mX (serverBlocker vX iClient) ∧
          orc = SQLITE_OK ∧ oret = true) := hcase
      by_cases h1 : orc = SQLITE_OK
      · rw [if_neg (by simp [h1])] at hX
        by_cases h2 : oret = true
        · rw [if_pos h2] at hX
          have hb := serverBlocker_bounds vX iClient hwfX hpack
          rcases homX with hom | ⟨hom, -, -⟩
          · rw [hom] at hX
            exact ih mX (mX (pageLockIdx pgno)) rX rc m1 r1 hszX rfl
              (hsyncX ▸ hwfX) (hsyncX ▸ hbitX) (hsyncX ▸ himpX) hX hrc
          · rw [hom] at hX
            have hvX : vX < 2 ^ 32 := hsyncX ▸ hszX (pageLockIdx pgno)
            have hval : scrubMap mX (serverBlocker vX iClient) (pageLockIdx pgno) =
                scrubWord vX (serverBlocker vX iClient) := by
              rw [scrubMap_page, hsyncX]
            have hbit2 : (scrubWord vX (serverBlocker vX iClient)).testBit iClient =
                v0.testBit iClient := by
              rw [scrubWord_testBit vX _ iClient hiC (Ne.symm hb.2), hbitX]
            have hwf2 : (scrubWord vX (serverBlocker vX iClient)) >>> HMA_CLIENT_SLOTS ≤ 16 := by
              rcases scrubWord_wf vX _ hvX hb.1 with hq | hq <;> rw [hq] <;> omega
            have himp2 : (scrubWord vX (serverBlocker vX iClient)) >>> HMA_CLIENT_SLOTS =
                iClient + 1 → rX = true ∨ v0 >>> HMA_CLIENT_SLOTS = iClient + 1 := by
              intro hq
              rcases scrubWord_wf vX _ hvX hb.1 with hw | hw
              · exact himpX (hw ▸ hq)
              · rw [hw] at hq; omega
            exact ih _ _ rX rc m1 r1 (scrubMap_sz mX _ hszX) rfl
              (hval ▸ hwf2) (hval ▸ hbit2) (hval ▸ himp2) hX hrc
        · rw [if_neg h2] at hX
          simp only [Option.some.injEq, Prod.mk.injEq] at hX
          obtain ⟨-, hm1, hr1⟩ := hX
          have hom : om = mX := by
            rcases homX with hom | ⟨-, -, hc⟩
            · exact hom
            · exact absurd hc h2
          subst hm1
          rw [hom, hsyncX]
          refine ⟨hbitX, ?_, hsyncX ▸ hszX (pageLockIdx pgno)⟩
          intro hq
          rcases himpX hq with hl | hr
          · exact Or.inl (hr1 ▸ hl)
          · exact Or.inr hr
      · rw [if_pos (by simp [h1])] at hX
        simp only [Option.some.injEq, Prod.mk.injEq] at hX
        obtain ⟨-, hm1, hr1⟩ := hX
        have hom : om = mX := by
          rcases homX with hom | ⟨-, hc, -⟩
          · exact hom
          · exact absurd hc h1
        subst hm1
        rw [hom, hsyncX]
        refine ⟨hbitX, ?_, hsyncX ▸ hszX (pageLockIdx pgno)⟩
        intro hq
        rcases himpX hq with hl | hr
        · exact Or.inl (hr1 ▸ hl)
        · exact Or.inr hr
    by_cases hconf : (0 ≤ serverWriteLocker v ∧ serverWriteLocker v ≠ (iClient : Int)) ∨
        v &&& (if bWrite then MASK16 &&& (U32MASK ^^^ (1 <<< iClient)) else 0) ≠ 0
    · by_cases hin : serverWriteLocker v < 0 ∧ bWrite = true ∧ bBlock = true
      · rw [serverLockLoop_conflict_install env iClient aClient pgno bWrite bBlock f m v bRes
          hconf hin] at h
        have hwf0 : v >>> HMA_CLIENT_SLOTS = 0 := (wl_lt_zero_iff v).mp hin.1
        have hmask : v &&& (MASK16 &&& (U32MASK ^^^ (1 <<< iClient))) ≠ 0 := by
          rcases hconf with ⟨hge, -⟩ | hm
          · exact absurd hin.1 (by omega)
          · rw [hin.2.1] at hm
            simpa using hm
        obtain ⟨j, hj16, hjc, hjb⟩ := mask_bit_exists v iClient hmask
        have hn32 : (v ||| ((iClient + 1) <<< HMA_CLIENT_SLOTS)) < 2 ^ 32 :=
          Nat.or_lt_two_pow (hsync ▸ hsz (pageLockIdx pgno)) (shl16_lt _ (by omega))
        have hnwf : (v ||| ((iClient + 1) <<< HMA_CLIENT_SLOTS)) >>> HMA_CLIENT_SLOTS =
            iClient + 1 := by
          show (v ||| ((iClient + 1) <<< 16)) >>> 16 = iClient + 1
          rw [wf_lor_shl16]
          have hz : v >>> 16 = 0 := hwf0
          rw [hz]
          simp
        have hnbit : (v ||| ((iClient + 1) <<< HMA_CLIENT_SLOTS)).testBit iClient =
            v0.testBit iClient := by
          rw [show ((iClient + 1) <<< HMA_CLIENT_SLOTS) = ((iClient + 1) <<< 16) from rfl,
            testBit_lor_shl16_low _ _ _ hiC, hbit]
        refine main (setIdx m (pageLockIdx pgno) (v ||| ((iClient + 1) <<< HMA_CLIENT_SLOTS)))
          (v ||| ((iClient + 1) <<< HMA_CLIENT_SLOTS)) true
          (setIdx_sz m _ _ hsz hn32) (setIdx_self _ _ _) (by omega) hnbit
          (fun _ => Or.inl rfl) ?_ h
        refine Or.inr ⟨j, hj16, hjc, ?_⟩
        rw [show ((iClient + 1) <<< HMA_CLIENT_SLOTS) = ((iClient + 1) <<< 16) from rfl,
          testBit_lor_shl16_low _ _ _ hj16]
        exact hjb
      · rw [serverLockLoop_conflict_noinstall env iClient aClient pgno bWrite bBlock f m v bRes
          hconf hin] at h
        exact main m v bRes hsz hsync hwf hbit himp (conflict_pack v iClient bWrite hconf) h
    · rw [serverLockLoop_acquire env iClient aClient pgno bWrite bBlock f m v bRes hconf] at h
      simp only [Option.some.injEq, Prod.mk.injEq] at h
      exact absurd h.1.symm hrc

lemma serverLockFinish_frame (env : Env) (s : ServerState) (pgno : Nat) :
    (serverLockFinish env s pgno).aMap = s.aMap ∧
    (serverLockFinish env s pgno).aLock = s.aLock ∧
    (serverLockFinish env s pgno).iClient = s.iClient ∧
    (serverLockFinish env s pgno).aClient = s.aClient ∧
    (serverLockFinish env s pgno).nUsWrite = s.nUsWrite := by
  unfold serverLockFinish
  split <;> exact ⟨rfl, rfl, rfl, rfl, rfl⟩

set_option maxRecDepth 4096 in
/-- Claim C4 (counterexample): when the caller already holds the write lock on
page 9 (slot word 65537: write field 1, reader bit 0, client id 0) and the
full history buffer fails to reallocate, sqlite3ServerLock returns
SQLITE_NOMEM while the slot's write field still names the caller — the
claim's clause that on every non-OK return the write field no longer names
the caller is false on the code. -/
theorem server_lock_failure_counterexample :
    ∃ st1, sqlite3ServerLock envNoAlloc 1 stHeldFull 9 true false =
        some (SQLITE_NOMEM, st1) ∧
      (st1.aMap (pageLockIdx 9)) >>> HMA_CLIENT_SLOTS = stHeldFull.iClient + 1 ∧
      SQLITE_NOMEM ≠ SQLITE_OK := by
  exact ⟨_, rfl, by decide, by decide⟩

/-- Claim C4 (amended): whenever sqlite3ServerLock returns a non-OK code
(BUSY_DEADLOCK, NOMEM, or any error), any RESERVED installation it made during
the call has been rolled back before returning: on exit the slot's write field
names the caller only if it already did on entry, and the caller's reader bit
is set only if it already was on entry, so the shared page-lock word retains
no contribution from the failed call. -/
theorem server_lock_failure_no_contrib (env : Env) (fuel : Nat) (st : ServerState)
    (pgno : Nat) (bWrite bBlock : Bool) (rc : Nat) (st1 : ServerState)
    (hiC : st.iClient < 16)
    (hsz : ∀ j, st.aMap j < 2 ^ 32)
    (hwf : (st.aMap (pageLockIdx pgno)) >>> HMA_CLIENT_SLOTS ≤ 16)
    (h : sqlite3ServerLock env fuel st pgno bWrite bBlock = some (rc, st1))
    (hrc : rc ≠ SQLITE_OK) :
    ((st1.aMap (pageLockIdx pgno)).testBit st.iClient = true →
      (st.aMap (pageLockIdx pgno)).testBit st.iClient = true) ∧
    ((st1.aMap (pageLockIdx pgno)) >>> HMA_CLIENT_SLOTS = st.iClient + 1 →
      (st.aMap (pageLockIdx pgno)) >>> HMA_CLIENT_SLOTS = st.iClient + 1) := by
  by_cases ha : st.aLock.length = st.nAlloc ∧ env.allocOk = false
  · rw [sqlite3ServerLock_nomem env fuel st pgno bWrite bBlock ha.1 ha.2] at h
    have h2 : serverLockFinish env st pgno = st1 := congrArg Prod.snd (Option.some.inj h)
    rw [← h2, (serverLockFinish_frame env st pgno).1]
    exact ⟨fun hq => hq, fun hq => hq⟩
  · by_cases hh : heldTest st pgno bWrite = true
    · rw [sqlite3ServerLock_fast env fuel st pgno bWrite bBlock ha hh] at h
      exact absurd (congrArg Prod.fst (Option.some.inj h)) (fun hq => hrc hq.symm)
    · obtain ⟨m1, r1, hloop, h2⟩ := sqlite3ServerLock_slow_inv env fuel st pgno bWrite bBlock
        rc st1 ha (by simpa using hh) h
      have hframe := serverLockLoop_fail_frame env st.iClient st.aClient pgno bWrite bBlock
        (st.aMap (pageLockIdx pgno)) hiC fuel st.aMap (st.aMap (pageLockIdx pgno)) false
        rc m1 r1 hsz rfl hwf rfl (fun hq => Or.inr hq) hloop hrc
      have hmap : st1.aMap = (if rc ≠ SQLITE_OK ∧ r1 = true then
          setIdx m1 (pageLockIdx pgno) ((m1 (pageLockIdx pgno)) &&& MASK16) else m1) := by
        rw [h2, (serverLockFinish_frame env _ pgno).1]
      by_cases hres : r1 = true
      · rw [hmap, if_pos ⟨hrc, hres⟩, setIdx_self]
        constructor
        · intro hq
          rw [testBit_land_mask16 _ _ hiC] at hq
          exact hframe.1 ▸ hq
        · intro hq
          rw [show (m1 (pageLockIdx pgno) &&& MASK16) >>> HMA_CLIENT_SLOTS = 0 from
            wf_land_mask16 _] at hq
          omega
      · rw [hmap, if_neg (fun hq => hres hq.2)]
        constructor
        · intro hq
          exact hframe.1 ▸ hq
        · intro hq
          rcases hframe.2.1 hq with hl | hr
          · exact absurd hl hres
          · exact hr

/-- Claim C4 (witness): the amended statement instantiated on the concrete
failing non-blocking read-lock request against a live local writer. -/
theorem server_lock_failure_no_contrib_witness :
    stPeerBlocked.iClient < 16 ∧
    (stPeerBlocked.aMap (pageLockIdx 5)) >>> HMA_CLIENT_SLOTS ≤ 16 ∧
    ∃ rc st1, sqlite3ServerLock envA 1 stPeerBlocked 5 false false = some (rc, st1) ∧
      rc ≠ SQLITE_OK ∧
      ((st1.aMap (pageLockIdx 5)).testBit stPeerBlocked.iClient = true →
        (stPeerBlocked.aMap (pageLockIdx 5)).testBit stPeerBlocked.iClient = true) := by
  refine ⟨by decide, by decide, _, _, rfl, by decide, ?_⟩
  exact (server_lock_failure_no_contrib envA 1 stPeerBlocked 5 false false _ _
    (by decide) (fun j => by unfold stPeerBlocked; dsimp; split <;> decide)
    (by decide) rfl (by decide)).1

/-! ## Claim C6 -/

lemma serverLockLoop_ok_bit (env : Env) (iClient : Nat) (aClient : Nat → Bool)
    (pgno : Nat) (bBlock : Bool) :
    ∀ fuel m v bRes m1 r1,
      serverLockLoop env iClient aClient pgno false bBlock fuel m v bRes =
        some (SQLITE_OK, m1, r1) →
      (m1 (pageLockIdx pgno)).testBit iClient = true := by
  intro fuel
  induction fuel with
  | zero =>
    intro m v bRes m1 r1 h
    exact absurd h (by simp [serverLockLoop])
  | succ f ih =>
    intro m v bRes m1 r1 h
    by_cases hconf : (0 ≤ serverWriteLocker v ∧ serverWriteLocker v ≠ (iClient : Int)) ∨
        v &&& (if (false : Bool) then MASK16 &&& (U32MASK ^^^ (1 <<< iClient)) else 0) ≠ 0
    · have hin : ¬(serverWriteLocker v < 0 ∧ (false : Bool) = true ∧ bBlock = true) := by
        simp
      rw [serverLockLoop_conflict_noinstall env iClient aClient pgno false bBlock f m v bRes
        hconf hin] at h
      rcases hoc : serverOvercomeLock env iClient aClient bBlock m v with ⟨orc, oret, om⟩
      rw [hoc] at h
      dsimp only at h
      by_cases h1 : orc = SQLITE_OK
      · rw [if_neg (by simp [h1])] at h
        by_cases h2 : oret = true
        · rw [if_pos h2] at h
          exact ih om (om (pageLockIdx pgno)) bRes m1 r1 h
        · rw [if_neg h2] at h
          have hc := congrArg Prod.fst (Option.some.inj h)
          simp [SQLITE_BUSY_DEADLOCK, SQLITE_OK] at hc
      · rw [if_pos (by simp [h1])] at h
        exact absurd (congrArg Prod.fst (Option.some.inj h)) h1
    · rw [serverLockLoop_acquire env iClient aClient pgno false bBlock f m v bRes hconf] at h
      simp only [Option.some.injEq, Prod.mk.injEq] at h
      obtain ⟨-, hm1, -⟩ := h
      rw [← hm1, setIdx_self]
      simp only [Bool.false_eq_true, if_false, Nat.or_zero]
      exact testBit_lor_bit_self v iClient

lemma server_read_lock_ok_bit (env : Env) (fuel : Nat) (st : ServerState) (pgno : Nat)
    (bBlock : Bool) (st1 : ServerState)
    (h : sqlite3ServerLock env fuel st pgno false bBlock = some (SQLITE_OK, st1)) :
    (st1.aMap (pageLockIdx pgno)).testBit st1.iClient = true := by
  by_cases ha : st.aLock.length = st.nAlloc ∧ env.allocOk = false
  · rw [sqlite3ServerLock_nomem env fuel st pgno false bBlock ha.1 ha.2] at h
    have hc := congrArg Prod.fst (Option.some.inj h)
    simp [SQLITE_NOMEM, SQLITE_OK] at hc
  · by_cases hh : heldTest st pgno false = true
    · rw [sqlite3ServerLock_fast env fuel st pgno false bBlock ha hh] at h
      have h2 : serverLockFinish env (growState st) pgno = st1 :=
        congrArg Prod.snd (Option.some.inj h)
      rw [← h2, (serverLockFinish_frame env _ pgno).1, (growState_frame st).1,
        (serverLockFinish_frame env _ pgno).2.2.1, (growState_frame st).2.2.1]
      simpa [heldTest] using hh
    · obtain ⟨m1, r1, hloop, h2⟩ := sqlite3ServerLock_slow_inv env fuel st pgno false bBlock
        SQLITE_OK st1 ha (by simpa using hh) h
      have hbit := serverLockLoop_ok_bit env st.iClient st.aClient pgno bBlock fuel
        st.aMap (st.aMap (pageLockIdx pgno)) false m1 r1 hloop
      have hmap : st1.aMap = m1 := by
        rw [h2, (serverLockFinish_frame env _ pgno).1]
        rw [if_neg (fun hq => hq.1 rfl)]
      have hic : st1.iClient = st.iClient := by
        rw [h2, (serverLockFinish_frame env _ pgno).2.2.1]
        exact (growState_frame st).2.2.1
      rw [hmap, hic]
      exact hbit

set_option maxRecDepth 4096 in
/-- Claim C6 (counterexample): client 0 already holds SHARED on page 5 (its
reader bit is set in the slot word), but its history buffer is full and
reallocation fails, so a further read-lock call returns SQLITE_NOMEM, not OK —
the buffer-growth step runs before the fast-path test (server.c lines
506-528), so the claim as stated is false on the code. -/
theorem server_lock_shared_idempotent_counterexample :
    (stSharedFull.aMap (pageLockIdx 5)).testBit stSharedFull.iClient = true ∧
    (sqlite3ServerLock envNoAlloc 1 stSharedFull 5 false false).map (fun r => r.1) =
      some SQLITE_NOMEM ∧
    SQLITE_NOMEM ≠ SQLITE_OK := by decide

/-- Claim C6 (amended): for a connection s and page p on which s already holds
SHARED (bit client_id set in the slot word), a further call
lock(s, p, write=false, blocking=anything) returns OK via the fast path,
changes no page-lock slot word and does not extend the lock history, provided
the history buffer does not need to grow or its reallocation succeeds
(otherwise the call returns NOMEM before the fast-path test); hence
lock(s,p,false,_); lock(s,p,false,_) behaves like the single call on shared
state, with the history extended only by the first call, under the same
proviso for the second call. -/
theorem server_lock_shared_fast_path :
    (∀ env fuel st pgno bBlock,
      ¬(st.aLock.length = st.nAlloc ∧ env.allocOk = false) →
      (st.aMap (pageLockIdx pgno)).testBit st.iClient = true →
      ∃ st1, sqlite3ServerLock env fuel st pgno false bBlock = some (SQLITE_OK, st1) ∧
        st1.aMap = st.aMap ∧ st1.aLock = st.aLock) ∧
    (∀ env fuel1 fuel2 st pgno bBlock1 bBlock2 st1,
      sqlite3ServerLock env fuel1 st pgno false bBlock1 = some (SQLITE_OK, st1) →
      ¬(st1.aLock.length = st1.nAlloc ∧ env.allocOk = false) →
      ∃ st2, sqlite3ServerLock env fuel2 st1 pgno false bBlock2 = some (SQLITE_OK, st2) ∧
        st2.aMap = st1.aMap ∧ st2.aLock = st1.aLock) := by
  have p1 : ∀ env fuel st pgno bBlock,
      ¬(st.aLock.length = st.nAlloc ∧ env.allocOk = false) →
      (st.aMap (pageLockIdx pgno)).testBit st.iClient = true →
      ∃ st1, sqlite3ServerLock env fuel st pgno false bBlock = some (SQLITE_OK, st1) ∧
        st1.aMap = st.aMap ∧ st1.aLock = st.aLock := by
    intro env fuel st pgno bBlock halloc hbit
    have hheld : heldTest st pgno false = true := by simpa [heldTest] using hbit
    refine ⟨serverLockFinish env (growState st) pgno,
      sqlite3ServerLock_fast env fuel st pgno false bBlock halloc hheld, ?_, ?_⟩
    · rw [(serverLockFinish_frame env _ pgno).1, (growState_frame st).1]
    · rw [(serverLockFinish_frame env _ pgno).2.1, (growState_frame st).2.1]
  refine ⟨p1, ?_⟩
  intro env fuel1 fuel2 st pgno bBlock1 bBlock2 st1 h halloc2
  exact p1 env fuel2 st1 pgno bBlock2 halloc2
    (server_read_lock_ok_bit env fuel1 st pgno bBlock1 st1 h)

/-- Claim C6 (witness): the amended statement instantiated on concrete states:
a fast-path repeat on page 1 already held SHARED, and the two-call sequence on
page 3 from the zero state. -/
theorem server_lock_shared_fast_path_witness :
    (∃ st1, sqlite3ServerLock envA 1 stShared1 1 false false = some (SQLITE_OK, st1) ∧
      st1.aMap = stShared1.aMap ∧ st1.aLock = stShared1.aLock) ∧
    (∃ st1, sqlite3ServerLock envA 1 stZero 3 false false = some (SQLITE_OK, st1) ∧
      ∃ st2, sqlite3ServerLock envA 1 st1 3 false false = some (SQLITE_OK, st2) ∧
        st2.aMap = st1.aMap ∧ st2.aLock = st1.aLock) := by
  constructor
  · exact server_lock_shared_fast_path.1 envA 1 stShared1 1 false (by decide) (by decide)
  · refine ⟨_, rfl, ?_⟩
    exact server_lock_shared_fast_path.2 envA 1 1 stZero 3 false false _ rfl (by decide)

/-! ## Claim C3 -/

lemma serverEndStepWord_lt (v i : Nat) (hv : v < 2 ^ 32) : serverEndStepWord v i < 2 ^ 32 := by
  simp only [serverEndStepWord]
  split
  · have h2 : (v &&& MASK16) &&& (U32MASK ^^^ (1 <<< i)) ≤ v &&& MASK16 := Nat.and_le_left
    have h3 : v &&& MASK16 ≤ v := Nat.and_le_left
    omega
  · have h2 : v &&& (U32MASK ^^^ (1 <<< i)) ≤ v := Nat.and_le_left
    omega

lemma serverEndStepWord_clean (v i : Nat) (hi : i < 16) (hv : v < 2 ^ 32) :
    ¬ clientContrib (serverEndStepWord v i) i := by
  intro hc
  simp only [serverEndStepWord, clientContrib] at hc
  rcases hc with hbit | hwf
  · rw [Nat.testBit_and, notBit_testBit _ _ (by omega)] at hbit
    simp at hbit
  · by_cases hcase : v >>> HMA_CLIENT_SLOTS = i + 1
    · rw [if_pos hcase] at hwf
      have hlt : (v &&& MASK16) &&& (U32MASK ^^^ (1 <<< i)) < 2 ^ 16 := by
        have h2 : (v &&& MASK16) &&& (U32MASK ^^^ (1 <<< i)) ≤ v &&& MASK16 := Nat.and_le_left
        have h3 := land_mask16_lt v
        omega
      rw [show HMA_CLIENT_SLOTS = 16 from rfl, shr16_zero _ hlt] at hwf
      omega
    · rw [if_neg hcase] at hwf
      rw [show HMA_CLIENT_SLOTS = 16 from rfl] at hwf hcase
      rw [wf_land_notbit v i hv hi] at hwf
      exact hcase hwf

lemma serverEndLoop_clean (env : Env) (iClient : Nat) (iUsW : Int) (hiC : iClient < 16) :
    ∀ (L : List Nat) (m : Nat → Nat) (nUsW : Int) (nLogs : Nat),
      (∀ j, m j < 2 ^ 32) →
      (∀ s, s < HMA_PAGELOCK_SLOTS → clientContrib (m (pageLockIdx s)) iClient →
        pageLockIdx s ∈ L.map pageLockIdx) →
      ∀ s, s < HMA_PAGELOCK_SLOTS →
        ¬ clientContrib ((serverEndLoop env iClient iUsW L m nUsW nLogs).1 (pageLockIdx s))
          iClient := by
  intro L
  induction L with
  | nil =>
    intro m nUsW nLogs hm hcov s hs hc
    simp only [serverEndLoop] at hc
    have := hcov s hs hc
    simp at this
  | cons p rest ih =>
    intro m nUsW nLogs hm hcov s hs
    simp only [serverEndLoop]
    have hm1 : ∀ j,
        setIdx m (pageLockIdx p) (serverEndStepWord (m (pageLockIdx p)) iClient) j < 2 ^ 32 :=
      setIdx_sz _ _ _ hm (serverEndStepWord_lt _ _ (hm _))
    have hcov1 : ∀ t, t < HMA_PAGELOCK_SLOTS →
        clientContrib
          ((setIdx m (pageLockIdx p) (serverEndStepWord (m (pageLockIdx p)) iClient))
            (pageLockIdx t)) iClient →
        pageLockIdx t ∈ rest.map pageLockIdx := by
      intro t ht hc
      by_cases heq : pageLockIdx t = pageLockIdx p
      · rw [heq, setIdx_self] at hc
        exact absurd hc (serverEndStepWord_clean _ _ hiC (hm _))
      · unfold setIdx at hc
        rw [if_neg heq] at hc
        have hmem := hcov t ht hc
        simp only [List.map_cons] at hmem
        rcases List.mem_cons.mp hmem with h1 | h2
        · exact absurd h1 heq
        · exact h2
    split
    · exact ih _ _ _ hm1 hcov1 s hs
    · exact ih _ _ _ hm1 hcov1 s hs

lemma serverLockLoop_cov (env : Env) (iClient : Nat) (aClient : Nat → Bool)
    (pgno : Nat) (bWrite bBlock : Bool) (hist : List Nat) (hiC : iClient < 16)
    (hidx : pageLockIdx pgno ∈ hist) :
    ∀ fuel m v bRes rc m1 r1,
      (∀ j, m j < 2 ^ 32) →
      m (pageLockIdx pgno) = v →
      v >>> HMA_CLIENT_SLOTS ≤ 16 →
      (∀ s, s < HMA_PAGELOCK_SLOTS → clientContrib (m (pageLockIdx s)) iClient →
        pageLockIdx s ∈ hist) →
      serverLockLoop env iClient aClient pgno bWrite bBlock fuel m v bRes =
        some (rc, m1, r1) →
      (∀ j, m1 j < 2 ^ 32) ∧
      (∀ s, s < HMA_PAGELOCK_SLOTS → clientContrib (m1 (pageLockIdx s)) iClient →
        pageLockIdx s ∈ hist) := by
  intro fuel
  induction fuel with
  | zero =>
    intro m v bRes rc m1 r1 _ _ _ _ h
    exact absurd h (by simp [serverLockLoop])
  | succ f ih =>
    intro m v bRes rc m1 r1 hsz hsync hwf hcov h
    have main : ∀ (mX : Nat → Nat) (vX : Nat) (rX : Bool),
        (∀ j, mX j < 2 ^ 32) →
        mX (pageLockIdx pgno) = vX →
        vX >>> HMA_CLIENT_SLOTS ≤ 16 →
        (∀ s, s < HMA_PAGELOCK_SLOTS → clientContrib (mX (pageLockIdx s)) iClient →
          pageLockIdx s ∈ hist) →
        ((vX >>> HMA_CLIENT_SLOTS ≠ 0 ∧ vX >>> HMA_CLIENT_SLOTS ≠ iClient + 1) ∨
          (∃ j, j < 16 ∧ j ≠ iClient ∧ vX.testBit j = true)) →
        (if (serverOvercomeLock env iClient aClient bBlock mX vX).1 ≠ SQLITE_OK then
            some ((serverOvercomeLock env iClient aClient bBlock mX vX).1,
              (serverOvercomeLock env iClient aClient bBlock mX vX).2.2, rX)
          else if (serverOvercomeLock env iClient aClient bBlock mX vX).2.1 = true then
            serverLockLoop env iClient aClient pgno bWrite bBlock f
              ((serverOvercomeLock env iClient aClient bBlock mX vX).2.2)
              ((serverOvercomeLock env iClient aClient bBlock mX vX).2.2 (pageLockIdx pgno)) rX
          else some (SQLITE_BUSY_DEADLOCK,
            (serverOvercomeLock env iClient aClient bBlock mX vX).2.2, rX)) =
          some (rc, m1, r1) →
        (∀ j, m1 j < 2 ^ 32) ∧
        (∀ s, s < HMA_PAGELOCK_SLOTS → clientContrib (m1 (pageLockIdx s)) iClient →
          pageLockIdx s ∈ hist) := by
      intro mX vX rX hszX hsyncX hwfX hcovX hpack hX
      rcases hoc : serverOvercomeLock env iClient aClient bBlock mX vX with ⟨orc, oret, om⟩
      have hcase := serverOvercomeLock_cases env iClient aClient bBlock mX vX
      rw [hoc] at hcase hX
      dsimp only at hcase hX
      have hb := serverBlocker_bounds vX iClient hwfX hpack
      have hvX : vX < 2 ^ 32 := hsyncX ▸ hszX (pageLockIdx pgno)
      have homsz : ∀ j, om j < 2 ^ 32 := by
        rcases hcase with hom | ⟨hom, -, -⟩
        · rw [hom]; exact hszX
        · rw [hom]; exact scrubMap_sz mX _ hszX
      have homcov : ∀ s, s < HMA_PAGELOCK_SLOTS → clientContrib (om (pageLockIdx s)) iClient →
          pageLockIdx s ∈ hist := by
        rcases hcase with hom | ⟨hom, -, -⟩
        · rw [hom]; exact hcovX
        · rw [hom]
          intro s hs hc
          rw [scrubMap_page] at hc
          exact hcovX s hs (scrubWord_contrib _ _ _ (hszX _) hb.1 (Ne.symm hb.2) hiC hc)
      by_cases h1 : orc = SQLITE_OK
      · rw [if_neg (by simp [h1])] at hX
        by_cases h2 : oret = true
        · rw [if_pos h2] at hX
          have homwf : (om (pageLockIdx pgno)) >>> HMA_CLIENT_SLOTS ≤ 16 := by
            rcases hcase with hom | ⟨hom, -, -⟩
            · rw [hom, hsyncX]; exact hwfX
            · rw [hom, scrubMap_page, hsyncX]
              rcases scrubWord_wf vX _ hvX hb.1 with hq | hq <;> rw [hq] <;> omega
          exact ih om (om (pageLockIdx pgno)) rX rc m1 r1 homsz rfl homwf homcov hX
        · rw [if_neg h2] at hX
          simp only [Option.some.injEq, Prod.mk.injEq] at hX
          obtain ⟨-, hm1, -⟩ := hX
          rw [← hm1]
          exact ⟨homsz, homcov⟩
      · rw [if_pos (by simp [h1])] at hX
        simp only [Option.some.injEq, Prod.mk.injEq] at hX
        obtain ⟨-, hm1, -⟩ := hX
        rw [← hm1]
        exact ⟨homsz, homcov⟩
    by_cases hconf : (0 ≤ serverWriteLocker v ∧ serverWriteLocker v ≠ (iClient : Int)) ∨
        v &&& (if bWrite then MASK16 &&& (U32MASK ^^^ (1 <<< iClient)) else 0) ≠ 0
    · by_cases hin : serverWriteLocker v < 0 ∧ bWrite = true ∧ bBlock = true
      · rw [serverLockLoop_conflict_install env iClient aClient pgno bWrite bBlock f m v bRes
          hconf hin] at h
        have hwf0 : v >>> HMA_CLIENT_SLOTS = 0 := (wl_lt_zero_iff v).mp hin.1
        have hmask : v &&& (MASK16 &&& (U32MASK ^^^ (1 <<< iClient))) ≠ 0 := by
          rcases hconf with ⟨hge, -⟩ | hm
          · exact absurd hin.1 (by omega)
          · rw [hin.2.1] at hm
            simpa using hm
        obtain ⟨j, hj16, hjc, hjb⟩ := mask_bit_exists v iClient hmask
        have hn32 : (v ||| ((iClient + 1) <<< HMA_CLIENT_SLOTS)) < 2 ^ 32 :=
          Nat.or_lt_two_pow (hsync ▸ hsz (pageLockIdx pgno)) (shl16_lt _ (by omega))
        have hnwf : (v ||| ((iClient + 1) <<< HMA_CLIENT_SLOTS)) >>> HMA_CLIENT_SLOTS =
            iClient + 1 := by
          show (v ||| ((iClient + 1) <<< 16)) >>> 16 = iClient + 1
          rw [wf_lor_shl16]
          have hz : v >>> 16 = 0 := hwf0
          rw [hz]
          simp
        have hcov2 : ∀ s, s < HMA_PAGELOCK_SLOTS →
            clientContrib ((setIdx m (pageLockIdx pgno)
              (v ||| ((iClient + 1) <<< HMA_CLIENT_SLOTS))) (pageLockIdx s)) iClient →
            pageLockIdx s ∈ hist := by
          intro s hs hc
          by_cases heq : pageLockIdx s = pageLockIdx pgno
          · rw [heq]; exact hidx
          · unfold setIdx at hc
            rw [if_neg heq] at hc
            exact hcov s hs hc
        refine main (setIdx m (pageLockIdx pgno) (v ||| ((iClient + 1) <<< HMA_CLIENT_SLOTS)))
          (v ||| ((iClient + 1) <<< HMA_CLIENT_SLOTS)) true
          (setIdx_sz m _ _ hsz hn32) (setIdx_self _ _ _) (by omega) hcov2 ?_ h
        refine Or.inr ⟨j, hj16, hjc, ?_⟩
        rw [show ((iClient + 1) <<< HMA_CLIENT_SLOTS) = ((iClient + 1) <<< 16) from rfl,
          testBit_lor_shl16_low _ _ _ hj16]
        exact hjb
      · rw [serverLockLoop_conflict_noinstall env iClient aClient pgno bWrite bBlock f m v bRes
          hconf hin] at h
        exact main m v bRes hsz hsync hwf hcov (conflict_pack v iClient bWrite hconf) h
    · rw [serverLockLoop_acquire env iClient aClient pgno bWrite bBlock f m v bRes hconf] at h
      simp only [Option.some.injEq, Prod.mk.injEq] at h
      obtain ⟨-, hm1, -⟩ := h
      have hn32 : ((v ||| (1 <<< iClient)) |||
          (if bWrite then (iClient + 1) <<< HMA_CLIENT_SLOTS else 0)) < 2 ^ 32 := by
        apply Nat.or_lt_two_pow
        · exact Nat.or_lt_two_pow (hsync ▸ hsz (pageLockIdx pgno)) (shl_one_lt iClient hiC)
        · split
          · exact shl16_lt _ (by omega)
          · decide
      refine ⟨?_, ?_⟩
      · rw [← hm1]
        exact setIdx_sz m _ _ hsz hn32
      · intro s hs hc
        rw [← hm1] at hc
        by_cases heq : pageLockIdx s = pageLockIdx pgno
        · rw [heq]; exact hidx
        · unfold setIdx at hc
          rw [if_neg heq] at hc
          exact hcov s hs hc

lemma server_lock_cov (env : Env) (fuel : Nat) (st : ServerState) (pgno : Nat)
    (bWrite bBlock : Bool) (rc : Nat) (st1 : ServerState)
    (hiC : st.iClient < 16)
    (hsz : ∀ j, st.aMap j < 2 ^ 32)
    (hwf : (st.aMap (pageLockIdx pgno)) >>> HMA_CLIENT_SLOTS ≤ 16)
    (hcov : ∀ s, s < HMA_PAGELOCK_SLOTS →
      clientContrib (st.aMap (pageLockIdx s)) st.iClient →
      pageLockIdx s ∈ st.aLock.map pageLockIdx)
    (h : sqlite3ServerLock env fuel st pgno bWrite bBlock = some (rc, st1)) :
    (∀ j, st1.aMap j < 2 ^ 32) ∧
    (∀ s, s < HMA_PAGELOCK_SLOTS → clientContrib (st1.aMap (pageLockIdx s)) st.iClient →
      pageLockIdx s ∈ st1.aLock.map pageLockIdx) ∧
    st1.iClient = st.iClient := by
  by_cases ha : st.aLock.length = st.nAlloc ∧ env.allocOk = false
  · rw [sqlite3ServerLock_nomem env fuel st pgno bWrite bBlock ha.1 ha.2] at h
    have h2 : serverLockFinish env st pgno = st1 := congrArg Prod.snd (Option.some.inj h)
    rw [← h2, (serverLockFinish_frame env st pgno).1, (serverLockFinish_frame env st pgno).2.1,
      (serverLockFinish_frame env st pgno).2.2.1]
    exact ⟨hsz, hcov, rfl⟩
  · by_cases hh : heldTest st pgno bWrite = true
    · rw [sqlite3ServerLock_fast env fuel st pgno bWrite bBlock ha hh] at h
      have h2 : serverLockFinish env (growState st) pgno = st1 :=
        congrArg Prod.snd (Option.some.inj h)
      rw [← h2, (serverLockFinish_frame env _ pgno).1, (serverLockFinish_frame env _ pgno).2.1,
        (serverLockFinish_frame env _ pgno).2.2.1, (growState_frame st).1,
        (growState_frame st).2.1, (growState_frame st).2.2.1]
      exact ⟨hsz, hcov, rfl⟩
    · obtain ⟨m1, r1, hloop, h2⟩ := sqlite3ServerLock_slow_inv env fuel st pgno bWrite bBlock
        rc st1 ha (by simpa using hh) h
      have hidx : pageLockIdx pgno ∈ (st.aLock ++ [pgno]).map pageLockIdx := by
        simp
      have hcov2 : ∀ s, s < HMA_PAGELOCK_SLOTS →
          clientContrib (st.aMap (pageLockIdx s)) st.iClient →
          pageLockIdx s ∈ (st.aLock ++ [pgno]).map pageLockIdx := by
        intro s hs hc
        have := hcov s hs hc
        simp only [List.map_append, List.mem_append]
        exact Or.inl (by simpa using this)
      have hloopres := serverLockLoop_cov env st.iClient st.aClient pgno bWrite bBlock
        ((st.aLock ++ [pgno]).map pageLockIdx) hiC hidx fuel st.aMap
        (st.aMap (pageLockIdx pgno)) false rc m1 r1 hsz rfl hwf hcov2 hloop
      have hmap : st1.aMap = (if rc ≠ SQLITE_OK ∧ r1 = true then
          setIdx m1 (pageLockIdx pgno) ((m1 (pageLockIdx pgno)) &&& MASK16) else m1) := by
        rw [h2, (serverLockFinish_frame env _ pgno).1]
      have hlock : st1.aLock = st.aLock ++ [pgno] := by
        rw [h2, (serverLockFinish_frame env _ pgno).2.1, (growState_frame st).2.1]
      have hic : st1.iClient = st.iClient := by
        rw [h2, (serverLockFinish_frame env _ pgno).2.2.1]
        exact (growState_frame st).2.2.1
      refine ⟨?_, ?_, hic⟩
      · rw [hmap]
        split
        · refine setIdx_sz m1 _ _ hloopres.1 ?_
          have hle : (m1 (pageLockIdx pgno)) &&& MASK16 ≤ m1 (pageLockIdx pgno) :=
            Nat.and_le_left
          have := hloopres.1 (pageLockIdx pgno)
          omega
        · exact hloopres.1
      · intro s hs hc
        rw [hlock]
        rw [hmap] at hc
        by_cases heq : pageLockIdx s = pageLockIdx pgno
        · rw [heq]
          simp
        · have hval : st1.aMap (pageLockIdx s) = m1 (pageLockIdx s) := by
            rw [hmap]
            split
            · unfold setIdx
              rw [if_neg heq]
            · rfl
          have hc2 : clientContrib (m1 (pageLockIdx s)) st.iClient := by
            revert hc
            split
            · unfold setIdx
              rw [if_neg heq]
              exact fun hc => hc
            · exact fun hc => hc
          exact hloopres.2 s hs hc2

/-- Claim C3: (part one) for a connection whose recorded lock history covers
every page-lock slot carrying its contribution (its reader bit set or the
write field naming it), sqlite3ServerEnd leaves no page-lock slot with any
contribution from that client; (part two) in particular, sqlite3ServerLock on
page p followed by sqlite3ServerEnd leaves the slot of page p without any
contribution from the connection. -/
theorem server_end_clears_client :
    (∀ env st, st.iClient < 16 → (∀ j, st.aMap j < 2 ^ 32) →
      (∀ s, s < HMA_PAGELOCK_SLOTS → clientContrib (st.aMap (pageLockIdx s)) st.iClient →
        pageLockIdx s ∈ st.aLock.map pageLockIdx) →
      ∀ s, s < HMA_PAGELOCK_SLOTS →
        ¬ clientContrib (((sqlite3ServerEnd env st).2.1).aMap (pageLockIdx s)) st.iClient) ∧
    (∀ env fuel st pgno bWrite bBlock rc st1 env2,
      st.iClient < 16 → (∀ j, st.aMap j < 2 ^ 32) →
      (st.aMap (pageLockIdx pgno)) >>> HMA_CLIENT_SLOTS ≤ 16 →
      (∀ s, s < HMA_PAGELOCK_SLOTS → clientContrib (st.aMap (pageLockIdx s)) st.iClient →
        pageLockIdx s ∈ st.aLock.map pageLockIdx) →
      sqlite3ServerLock env fuel st pgno bWrite bBlock = some (rc, st1) →
      ¬ clientContrib (((sqlite3ServerEnd env2 st1).2.1).aMap (pageLockIdx pgno)) st.iClient) := by
  have pA : ∀ env st, st.iClient < 16 → (∀ j, st.aMap j < 2 ^ 32) →
      (∀ s, s < HMA_PAGELOCK_SLOTS → clientContrib (st.aMap (pageLockIdx s)) st.iClient →
        pageLockIdx s ∈ st.aLock.map pageLockIdx) →
      ∀ s, s < HMA_PAGELOCK_SLOTS →
        ¬ clientContrib (((sqlite3ServerEnd env st).2.1).aMap (pageLockIdx s)) st.iClient := by
    intro env st hiC hsz hcov s hs
    have hmap : ((sqlite3ServerEnd env st).2.1).aMap =
        (serverEndLoop env st.iClient st.iUsWrite st.aLock st.aMap st.nUsWrite 0).1 := rfl
    rw [hmap]
    exact serverEndLoop_clean env st.iClient st.iUsWrite hiC st.aLock st.aMap st.nUsWrite 0
      hsz hcov s hs
  refine ⟨pA, ?_⟩
  intro env fuel st pgno bWrite bBlock rc st1 env2 hiC hsz hwf hcov h
  obtain ⟨hsz1, hcov1, hic1⟩ :=
    server_lock_cov env fuel st pgno bWrite bBlock rc st1 hiC hsz hwf hcov h
  have hres := pA env2 st1 (hic1 ▸ hiC) hsz1
    (fun s hs hc => hcov1 s hs (hic1.symm ▸ hc)) (pgno % HMA_PAGELOCK_SLOTS)
    (Nat.mod_lt pgno (by decide))
  rw [pageLockIdx_mod] at hres
  rw [← hic1]
  exact hres

/-- Claim C3 (witness): part one instantiated on a client holding SHARED on
page 1 with exactly that page recorded, and part two on a fresh read lock of
page 3 from the zero state followed by sqlite3ServerEnd. -/
theorem server_end_clears_client_witness :
    stShared1.iClient < 16 ∧
    (∀ s, s < HMA_PAGELOCK_SLOTS →
      ¬ clientContrib (((sqlite3ServerEnd envA stShared1).2.1).aMap (pageLockIdx s))
        stShared1.iClient) ∧
    (∃ rc st1, sqlite3ServerLock envA 1 stZero 3 false false = some (rc, st1) ∧
      ¬ clientContrib (((sqlite3ServerEnd envA st1).2.1).aMap (pageLockIdx 3))
        stZero.iClient) := by
  have hsz1 : ∀ j, stShared1.aMap j < 2 ^ 32 := by
    intro j
    show (if j = pageLockIdx 1 then 1 else 0) < 2 ^ 32
    split <;> decide
  have hcov1 : ∀ s, s < HMA_PAGELOCK_SLOTS →
      clientContrib (stShared1.aMap (pageLockIdx s)) stShared1.iClient →
      pageLockIdx s ∈ stShared1.aLock.map pageLockIdx := by
    intro s hs hc
    by_cases h1 : s = 1
    · subst h1
      simp [stShared1]
    · have hne : pageLockIdx s ≠ pageLockIdx 1 := by
        unfold pageLockIdx
        have hm1 : s % HMA_PAGELOCK_SLOTS = s := Nat.mod_eq_of_lt hs
        have hm2 : (1 : Nat) % HMA_PAGELOCK_SLOTS = 1 := rfl
        rw [hm1, hm2]
        omega
      have hval : stShared1.aMap (pageLockIdx s) = 0 := by
        show (if pageLockIdx s = pageLockIdx 1 then 1 else 0) = 0
        rw [if_neg hne]
      rw [hval] at hc
      simp [clientContrib] at hc
  have hszZ : ∀ j, stZero.aMap j < 2 ^ 32 := by
    intro j
    show (0 : Nat) < 2 ^ 32
    decide
  have hcovZ : ∀ s, s < HMA_PAGELOCK_SLOTS →
      clientContrib (stZero.aMap (pageLockIdx s)) stZero.iClient →
      pageLockIdx s ∈ stZero.aLock.map pageLockIdx := by
    intro s hs hc
    have hval : stZero.aMap (pageLockIdx s) = 0 := rfl
    rw [hval] at hc
    simp [clientContrib] at hc
  refine ⟨by decide, ?_, ?_⟩
  · exact server_end_clears_client.1 envA stShared1 (by decide) hsz1 hcov1
  · exact ⟨_, _, rfl, server_end_clears_client.2 envA 1 stZero 3 false false _ _ envA
      (by decide) hszZ (by decide) hcovZ rfl⟩
